import Mathlib

/-!
Formal model of the Game Boy tile codec implemented in `Elby.py`
(an 8x8 four-color pixel editor).

The codec part of the program is:
  * `grid_to_tile_bytes` : pack an 8x8 grid of color indices (0..3) into
    16 bitplane bytes, two per row (low plane then high plane), with
    column 0 in the most significant bit;
  * `to_little_endian_pairs` : swap each adjacent byte pair;
  * `_update_hex_display` : render the swapped bytes as 16 space-separated
    two-digit uppercase hex tokens (modelled as `update_hex_display`);
  * `hex_changed` : parse an edited hex string back into the grid
    (split on whitespace, check for 16 tokens, parse each token with
    Python's `int(tok, 16)`, undo the pair swap, extract the two bitplanes
    and write each decoded pixel into the caller's grid in place).

Modelling conventions, chosen once and used throughout:
  * Python strings are `List Char`; Python's `str.split()` (split on
    whitespace runs, dropping empty tokens) is `pySplit`, and
    `" ".join` is `joinSpace`.  The `.strip()` the source applies before
    `.split()` is omitted because `s.strip().split() = s.split()`.
  * Python `int` is `Int`; `x >> k` on a Python int is arithmetic shift,
    which is exactly Lean's `Int.shiftRight`, and `x & 1` is `Int.land x 1`
    (an `AndOp Int` instance is declared for the `&&&` notation).
    Values that are provably nonnegative (grid cells, tile bytes built by
    the encoder) are kept in `Nat`.
  * Fallible operations (dictionary lookups, list indexing, `int(...)`
    parsing) return `Option`; an uncaught exception is `none` at the level
    where the program would crash, and exceptions caught by a
    `try/except` are mapped to the error dialog shown by that handler.
-/

set_option maxRecDepth 16384

instance : AndOp Int := ⟨Int.land⟩

/-- Source constant `GRID = 8`. -/
def GRID : Nat := 8

/-- Source dictionary `GB_MAPPING`: color index to (low bit, high bit).
A lookup of a key outside the dictionary raises `KeyError`, hence `Option`. -/
def GB_MAPPING : Nat → Option (Nat × Nat) := fun n =>
  match n with
  | 0 => some (1, 1)
  | 1 => some (1, 0)
  | 2 => some (0, 0)
  | 3 => some (0, 1)
  | _ => none

/-- Source dictionary `GB_REVERSE = {v: k for k, v in GB_MAPPING.items()}`,
the inverted table.  The decoder looks it up with the pair of Python ints
obtained from the bit extraction, so the key type is `Int × Int`. -/
def GB_REVERSE : Int × Int → Option Nat := fun p =>
  match p with
  | (1, 1) => some 0
  | (1, 0) => some 1
  | (0, 0) => some 2
  | (0, 1) => some 3
  | _ => none

/-- Whitespace characters recognized by Python's `str.split()`
(the ASCII ones; tokens produced by the split contain none of them). -/
def isPyWhitespace (c : Char) : Bool :=
  c = ' ' || c = '\t' || c = '\n' || c = '\r' || c = '\x0b' || c = '\x0c'

def pySplitAux : List Char → List Char → List (List Char)
  | [], acc => if acc.isEmpty then [] else [acc.reverse]
  | c :: cs, acc =>
    if isPyWhitespace c then
      if acc.isEmpty then pySplitAux cs [] else acc.reverse :: pySplitAux cs []
    else pySplitAux cs (c :: acc)

/-- Python `text.split()`: split on whitespace runs, producing no empty
tokens and ignoring leading and trailing whitespace. -/
def pySplit (s : List Char) : List (List Char) := pySplitAux s []

/-- Python `" ".join(tokens)`. -/
def joinSpace : List (List Char) → List Char
  | [] => []
  | [t] => t
  | t :: t2 :: ts => t ++ ' ' :: joinSpace (t2 :: ts)

/-- Value of one hexadecimal digit character, as accepted by Python's
`int(tok, 16)` (ASCII digits and letters, both cases). -/
def hexDigitVal (c : Char) : Option Nat :=
  if 48 ≤ c.toNat ∧ c.toNat ≤ 57 then some (c.toNat - 48)
  else if 97 ≤ c.toNat ∧ c.toNat ≤ 102 then some (c.toNat - 87)
  else if 65 ≤ c.toNat ∧ c.toNat ≤ 70 then some (c.toNat - 55)
  else none

/-- The 22 accepted hex digit characters with their values, used to
enumerate the finitely many cases of `hexDigitVal`. -/
def hexPairs : List (Char × Nat) :=
  [('0', 0), ('1', 1), ('2', 2), ('3', 3), ('4', 4),
   ('5', 5), ('6', 6), ('7', 7), ('8', 8), ('9', 9),
   ('a', 10), ('b', 11), ('c', 12), ('d', 13), ('e', 14), ('f', 15),
   ('A', 10), ('B', 11), ('C', 12), ('D', 13), ('E', 14), ('F', 15)]

/-- Digit run after the first digit: single underscores are allowed
between digits (Python numeric literal rule). -/
def parseHexDigitsGo : Nat → List Char → Option Nat
  | acc, [] => some acc
  | acc, '_' :: c :: cs =>
    match hexDigitVal c with
    | some v => parseHexDigitsGo (16 * acc + v) cs
    | none => none
  | acc, c :: cs =>
    match hexDigitVal c with
    | some v => parseHexDigitsGo (16 * acc + v) cs
    | none => none

/-- Nonempty run of hex digits with optional single underscores between
digits. -/
def parseHexDigits : List Char → Option Nat
  | [] => none
  | c :: cs =>
    match hexDigitVal c with
    | some v => parseHexDigitsGo v cs
    | none => none

/-- Digit part of Python `int(tok, 16)` after the optional sign: an
optional `0x`/`0X` prefix (an underscore may follow the prefix), then a
digit run. -/
def parseHexBody (cs : List Char) : Option Nat :=
  match cs with
  | '0' :: x :: rest =>
    if x = 'x' ∨ x = 'X' then
      match rest with
      | '_' :: rest2 => parseHexDigits rest2
      | _ => parseHexDigits rest
    else parseHexDigits cs
  | _ => parseHexDigits cs

/-- Model of Python `int(tok, 16)`: optional sign, optional `0x` prefix,
any number of hex digits (so values outside 0..255 and negative values
parse fine).  The tokens the program feeds it come from `pySplit` and so
contain no whitespace, which lets us omit the surrounding-whitespace rule
of `int`. -/
def pyIntBase16 (s : List Char) : Option Int :=
  match s with
  | '+' :: rest => (parseHexBody rest).map (fun n => (n : Int))
  | '-' :: rest => (parseHexBody rest).map (fun n => -(n : Int))
  | _ => (parseHexBody s).map (fun n => (n : Int))

/-- Model of Python `f"{b:02X}"` for a nonnegative integer: uppercase hex
digits, zero-padded on the left to at least two characters. -/
def format02X (b : Nat) : List Char :=
  let ds := (Nat.toDigits 16 b).map Char.toUpper
  if ds.length = 1 then '0' :: ds else ds

/-- Inner loop of `grid_to_tile_bytes` (source lines 186-192): build the
low and high plane bytes of one row, `low |= lo << (7 - x)` for x = 0..7.
Indexing past the end of the row or a `GB_MAPPING` miss raises, hence
`Option`. -/
def rowLowHigh (row : List Nat) : Option (Nat × Nat) :=
  (List.range GRID).foldl
    (fun acc x =>
      acc.bind fun lh =>
      (row[x]?).bind fun c =>
      (GB_MAPPING c).map fun b =>
      (lh.1 ||| (b.1 <<< (7 - x)), lh.2 ||| (b.2 <<< (7 - x))))
    (some (0, 0))

/-- Source `grid_to_tile_bytes` (lines 184-195): for each row append the
low byte then the high byte. -/
def grid_to_tile_bytes (grid_data : List (List Nat)) : Option (List Nat) :=
  (List.range GRID).foldl
    (fun acc y =>
      acc.bind fun tile =>
      (grid_data[y]?).bind fun row =>
      (rowLowHigh row).map fun lh =>
      tile ++ [lh.1, lh.2])
    (some [])

/-- Source `to_little_endian_pairs` (lines 197-205): for i in
range(0, 16, 2) append `tile_bytes[i+1]` then `tile_bytes[i]`. -/
def to_little_endian_pairs {α : Type} (tile_bytes : List α) : Option (List α) :=
  ([0, 2, 4, 6, 8, 10, 12, 14] : List Nat).foldl
    (fun acc i =>
      acc.bind fun out =>
      (tile_bytes[i]?).bind fun a =>
      (tile_bytes[i + 1]?).map fun b =>
      out ++ [b, a])
    (some [])

/-- Source `_update_hex_display` (lines 207-212): the hex string written
into the entry widget, `" ".join(f"{b:02X}" for b in swapped)`. -/
def update_hex_display (grid_data : List (List Nat)) : Option (List Char) :=
  (grid_to_tile_bytes grid_data).bind fun tile =>
  (to_little_endian_pairs tile).map fun swapped =>
  joinSpace (swapped.map format02X)

/-- The three failure dialogs `hex_changed` can show. -/
inductive DecodeError where
  | malformedLength
  | invalidHexByte
  | invalidColorBits
deriving DecidableEq

/-- The list comprehension `[int(p, 16) for p in parts]` inside
`try/except ValueError` (source lines 224-228): all tokens parse or the
whole thing fails. -/
def parseTokens : List (List Char) → Option (List Int)
  | [] => some []
  | t :: ts =>
    match pyIntBase16 t, parseTokens ts with
    | some v, some vs => some (v :: vs)
    | _, _ => none

/-- The swap-undo loop of `hex_changed` (source lines 230-236), outside
any try/except: for i in range(0, 16, 2) append `bytes_le[i+1]` then
`bytes_le[i]`.  An index error here would crash the handler, hence the
outer `Option`. -/
def unswap (bytes_le : List Int) : Option (List Int) :=
  ([0, 2, 4, 6, 8, 10, 12, 14] : List Nat).foldl
    (fun acc i =>
      acc.bind fun tile =>
      (bytes_le[i]?).bind fun b =>
      (bytes_le[i + 1]?).map fun a =>
      tile ++ [a, b])
    (some [])

/-- The assignment `self.grid_data[row][x] = idx`: fails (raises) when
either index is out of range, otherwise updates the cell in place. -/
def setCell (g : List (List Nat)) (row x v : Nat) : Option (List (List Nat)) :=
  match g[row]? with
  | none => none
  | some r => if x < r.length then some (g.set row (r.set x v)) else none

/-- Inner pixel loop of the decode step (source lines 244-249), run for
one row: extract bit (7 - x) of each plane, look the pair up in
`GB_REVERSE` and write the cell.  On any failure the partially written
grid is kept and `false` is returned (the exception propagates to the
surrounding handler). -/
def decodeRowPx : List Nat → Int → Int → Nat → List (List Nat) → List (List Nat) × Bool
  | [], _, _, _, g => (g, true)
  | x :: xs, low, high, row, g =>
    match GB_REVERSE ((low >>> (7 - x)) &&& 1, (high >>> (7 - x)) &&& 1) with
    | none => (g, false)
    | some idx =>
      match setCell g row x idx with
      | none => (g, false)
      | some g2 => decodeRowPx xs low high row g2

/-- Outer row loop of the decode step (source lines 240-252), inside
`try/except Exception`: any failure anywhere in the loop is reported as
the "Hex does not map to valid GB color codes" dialog
(`DecodeError.invalidColorBits`), keeping whatever was already written. -/
def decodeRows : List Nat → List Int → List (List Nat) → List (List Nat) × Option DecodeError
  | [], _, g => (g, none)
  | row :: rows, tile, g =>
    match tile[2 * row]?, tile[2 * row + 1]? with
    | some low, some high =>
      match decodeRowPx (List.range GRID) low high row g with
      | (g2, true) => decodeRows rows tile g2
      | (g2, false) => (g2, some DecodeError.invalidColorBits)
    | _, _ => (g, some DecodeError.invalidColorBits)

/-- Decode stage after hex parsing (source lines 230-252): undo the byte
pair swap, then run the row loop over the caller's grid. -/
def decode_tail (grid_data : List (List Nat)) (bytes_le : List Int) :
    Option (List (List Nat) × Option DecodeError) :=
  (unswap bytes_le).map fun tile => decodeRows (List.range GRID) tile grid_data

/-- Source `hex_changed` (lines 216-255): the full decode pipeline.
Returns the grid state after the call together with the error dialog
shown, if any; `none` at the outer level is an uncaught exception.
(`text.strip()` before `text.split()` is dropped: it does not change the
token list.) -/
def hex_changed (grid_data : List (List Nat)) (text : List Char) :
    Option (List (List Nat) × Option DecodeError) :=
  let parts := pySplit text
  if parts.length ≠ 16 then
    some (grid_data, some DecodeError.malformedLength)
  else
    match parseTokens parts with
    | none => some (grid_data, some DecodeError.invalidHexByte)
    | some bytes_le => decode_tail grid_data bytes_le

/-- Grid invariant maintained by the editor: exactly 8 rows of exactly 8
cells, each cell a color index in 0..3. -/
def ValidGrid (g : List (List Nat)) : Prop :=
  g.length = 8 ∧ ∀ row ∈ g, row.length = 8 ∧ ∀ c ∈ row, c < 4

/-- Modelled from the spec (section 4.2, reference definition for the
refinement claim): the low bit of a color index under the fixed table. -/
def specLowBit : Nat → Nat
  | 0 => 1
  | 1 => 1
  | _ => 0

/-- Modelled from the spec (section 4.2, reference definition): the high
bit of a color index under the fixed table. -/
def specHighBit : Nat → Nat
  | 0 => 1
  | 3 => 1
  | _ => 0

/-- Modelled from the spec (section 4.2): one plane byte of a row, built
by setting bit (7 - x) to the bit of column x (column 0 is the most
significant bit). -/
def specRowByte (bitOf : Nat → Nat) (row : List Nat) : Nat :=
  (List.range 8).foldl (fun acc x => acc + bitOf (row.getD x 0) * 2 ^ (7 - x)) 0

/-- Modelled from the spec (section 4.2): the 16 tile bytes, row-major,
low plane byte then high plane byte per row. -/
def specTileBytes (g : List (List Nat)) : List Nat :=
  g.flatMap fun row => [specRowByte specLowBit row, specRowByte specHighBit row]

/-- Modelled from the spec (section 3, WireBytes): swap each adjacent
pair, `wire[2r] = tile[2r+1]` and `wire[2r+1] = tile[2r]`. -/
def specSwapPairs : List Nat → List Nat
  | a :: b :: rest => b :: a :: specSwapPairs rest
  | l => l

def hexDigitChar (n : Nat) : Char :=
  if n < 10 then Char.ofNat (48 + n) else Char.ofNat (55 + n)

/-- Modelled from the spec (section 3, HexString): one byte as exactly two
uppercase hexadecimal digits. -/
def specHexToken (b : Nat) : List Char :=
  [hexDigitChar (b / 16), hexDigitChar (b % 16)]

/-- Modelled from the spec (section 4.2): the reference encode function,
stated independently of the implementation. -/
def specEncode (g : List (List Nat)) : List Char :=
  joinSpace ((specSwapPairs (specTileBytes g)).map specHexToken)

/-- Modelled from the spec (section 4.3, round-trip law): `canonicalForm`
uppercases hex digits and normalizes whitespace runs to single spaces. -/
def specCanonicalForm (h : List Char) : List Char :=
  joinSpace ((pySplit h).map (fun t => t.map Char.toUpper))

/-- Token predicate used by claim C3 as stated: a valid hexadecimal
integer of two or fewer digits whose value lies in [0, 255]. -/
def claimValidByteToken (t : List Char) : Bool :=
  decide (t.length ≤ 2) &&
    match pyIntBase16 t with
    | some n => decide (0 ≤ n) && decide (n ≤ 255)
    | none => false

/-- Exactly two hexadecimal digit characters (the wire format of
section 6). -/
def isTwoHexDigits (t : List Char) : Bool :=
  match t with
  | [a, b] => (hexDigitVal a).isSome && (hexDigitVal b).isSome
  | _ => false

/-- Tokens that survive `pySplit` unchanged when joined with single
spaces: nonempty and free of whitespace. -/
def tokenOk (t : List Char) : Bool :=
  !t.isEmpty && t.all (fun c => !isPyWhitespace c)

/-- The color index the decode loop writes for one pixel: the reverse
lookup of the pair of extracted plane bits. -/
def pix (low high : Int) (bit : Nat) : Nat :=
  (GB_REVERSE ((low >>> bit) &&& 1, (high >>> bit) &&& 1)).getD 0

/-- The exact shape of the byte `rowLowHigh` accumulates with
`low |= lo << (7 - x)`. -/
def buildOr (b0 b1 b2 b3 b4 b5 b6 b7 : Nat) : Nat :=
  0 ||| b0 <<< 7 ||| b1 <<< 6 ||| b2 <<< 5 ||| b3 <<< 4 |||
    b4 <<< 3 ||| b5 <<< 2 ||| b6 <<< 1 ||| b7 <<< 0

/-- The pixel row the decode loop writes for plane bytes `low`, `high`. -/
def pixRow (low high : Int) : List Nat :=
  [pix low high 7, pix low high 6, pix low high 5, pix low high 4,
   pix low high 3, pix low high 2, pix low high 1, pix low high 0]

/-- Grids and strings used as concrete instances below. -/
def allWhite : List (List Nat) := List.replicate 8 (List.replicate 8 0)

def allDark : List (List Nat) := List.replicate 8 (List.replicate 8 2)

def checkerGrid : List (List Nat) :=
  [[0, 3, 0, 3, 0, 3, 0, 3], [3, 0, 3, 0, 3, 0, 3, 0],
   [0, 3, 0, 3, 0, 3, 0, 3], [3, 0, 3, 0, 3, 0, 3, 0],
   [0, 3, 0, 3, 0, 3, 0, 3], [3, 0, 3, 0, 3, 0, 3, 0],
   [0, 3, 0, 3, 0, 3, 0, 3], [3, 0, 3, 0, 3, 0, 3, 0]]

def sixteenZeros : List Char := joinSpace (List.replicate 16 ['0', '0'])

def fifteenZeros : List Char := joinSpace (List.replicate 15 ['0', '0'])

def tokens100 : List Char := joinSpace (['1', '0', '0'] :: List.replicate 15 ['0', '0'])

def tokensZZ : List Char := joinSpace (['z', 'z'] :: List.replicate 15 ['0', '0'])

def allFs : List Char := joinSpace (List.replicate 16 ['f', 'f'])

theorem range_eight : List.range GRID = [0, 1, 2, 3, 4, 5, 6, 7] := rfl

/-- Python `x & 1` on an arbitrary int equals `x mod 2` (also for
negative values, by two's complement). -/
theorem int_land_one (n : Int) : n &&& 1 = n % 2 := by
  cases n with
  | ofNat m =>
    show Int.land (Int.ofNat m) 1 = Int.ofNat m % 2
    have h1 : Int.land (Int.ofNat m) 1 = Int.ofNat (m &&& 1) := rfl
    rw [h1, Nat.and_one_is_mod]
    show ((m % 2 : Nat) : Int) = ((m : Nat) : Int) % 2
    omega
  | negSucc m =>
    show Int.land (Int.negSucc m) 1 = Int.negSucc m % 2
    have h1 : Int.land (Int.negSucc m) 1 = Int.ofNat (Nat.ldiff 1 m) := rfl
    have h2 : Nat.ldiff 1 m = 1 - m % 2 := by
      apply Nat.eq_of_testBit_eq
      intro i
      rw [Nat.testBit_ldiff]
      rcases Nat.mod_two_eq_zero_or_one m with hm | hm
      · have hb : m.testBit 0 = false := by
          rw [Nat.testBit_zero]; simp [hm]
        cases i with
        | zero => simp [hb, hm, Nat.testBit_zero]
        | succ j => simp [Nat.testBit_succ, hm]
      · have hb : m.testBit 0 = true := by
          rw [Nat.testBit_zero]; simp [hm]
        cases i with
        | zero => simp [hb, hm, Nat.testBit_zero]
        | succ j => simp [Nat.testBit_succ, hm]
    rw [h1, h2, Int.negSucc_eq]
    show ((1 - m % 2 : Nat) : Int) = -(((m : Nat) : Int) + 1) % 2
    omega

/-- Python `(x >> k) & 1` is floor division by `2 ^ k` followed by mod 2. -/
theorem int_shr_bit (n : Int) (k : Nat) : (n >>> k) &&& 1 = (n / (2 : Int) ^ k) % 2 := by
  rw [int_land_one, Int.shiftRight_eq_div_pow]
  norm_cast

theorem bit01 (n : Int) (k : Nat) : (n >>> k) &&& 1 = 0 ∨ (n >>> k) &&& 1 = 1 := by
  rw [int_shr_bit]; exact Int.emod_two_eq _

/-- Bits 0..7 of an int depend only on its value mod 256. -/
theorem mod256_bit (n : Int) (k : Nat) (hk : k < 8) :
    ((n % 256) >>> k) &&& 1 = (n >>> k) &&& 1 := by
  rw [int_shr_bit, int_shr_bit]
  interval_cases k <;> norm_num <;> omega

/-- The reverse lookup of a pair of extracted bits always succeeds: the
four-entry table covers all of {0,1} x {0,1}. -/
theorem rev_bits (low high : Int) (bit : Nat) :
    GB_REVERSE ((low >>> bit) &&& 1, (high >>> bit) &&& 1) = some (pix low high bit) := by
  unfold pix
  rcases bit01 low bit with h1 | h1 <;> rcases bit01 high bit with h2 | h2 <;>
    rw [h1, h2] <;> rfl

theorem pix_lt (low high : Int) (bit : Nat) : pix low high bit < 4 := by
  unfold pix
  rcases bit01 low bit with h1 | h1 <;> rcases bit01 high bit with h2 | h2 <;>
    rw [h1, h2] <;> decide

theorem buildOr_facts_fin : ∀ b0 b1 b2 b3 b4 b5 b6 b7 : Fin 2,
    buildOr b0 b1 b2 b3 b4 b5 b6 b7 < 256 ∧
    buildOr b0 b1 b2 b3 b4 b5 b6 b7 =
      (b0 : Nat) * 2 ^ 7 + (b1 : Nat) * 2 ^ 6 + (b2 : Nat) * 2 ^ 5 + (b3 : Nat) * 2 ^ 4 +
        (b4 : Nat) * 2 ^ 3 + (b5 : Nat) * 2 ^ 2 + (b6 : Nat) * 2 ^ 1 + (b7 : Nat) * 2 ^ 0 ∧
    ((buildOr b0 b1 b2 b3 b4 b5 b6 b7 >>> 7) &&& 1 = b0 ∧
     (buildOr b0 b1 b2 b3 b4 b5 b6 b7 >>> 6) &&& 1 = b1 ∧
     (buildOr b0 b1 b2 b3 b4 b5 b6 b7 >>> 5) &&& 1 = b2 ∧
     (buildOr b0 b1 b2 b3 b4 b5 b6 b7 >>> 4) &&& 1 = b3 ∧
     (buildOr b0 b1 b2 b3 b4 b5 b6 b7 >>> 3) &&& 1 = b4 ∧
     (buildOr b0 b1 b2 b3 b4 b5 b6 b7 >>> 2) &&& 1 = b5 ∧
     (buildOr b0 b1 b2 b3 b4 b5 b6 b7 >>> 1) &&& 1 = b6 ∧
     (buildOr b0 b1 b2 b3 b4 b5 b6 b7 >>> 0) &&& 1 = b7) := by decide

theorem buildOr_facts (b0 b1 b2 b3 b4 b5 b6 b7 : Nat)
    (h0 : b0 < 2) (h1 : b1 < 2) (h2 : b2 < 2) (h3 : b3 < 2)
    (h4 : b4 < 2) (h5 : b5 < 2) (h6 : b6 < 2) (h7 : b7 < 2) :
    buildOr b0 b1 b2 b3 b4 b5 b6 b7 < 256 ∧
    buildOr b0 b1 b2 b3 b4 b5 b6 b7 =
      b0 * 2 ^ 7 + b1 * 2 ^ 6 + b2 * 2 ^ 5 + b3 * 2 ^ 4 +
        b4 * 2 ^ 3 + b5 * 2 ^ 2 + b6 * 2 ^ 1 + b7 * 2 ^ 0 ∧
    ((buildOr b0 b1 b2 b3 b4 b5 b6 b7 >>> 7) &&& 1 = b0 ∧
     (buildOr b0 b1 b2 b3 b4 b5 b6 b7 >>> 6) &&& 1 = b1 ∧
     (buildOr b0 b1 b2 b3 b4 b5 b6 b7 >>> 5) &&& 1 = b2 ∧
     (buildOr b0 b1 b2 b3 b4 b5 b6 b7 >>> 4) &&& 1 = b3 ∧
     (buildOr b0 b1 b2 b3 b4 b5 b6 b7 >>> 3) &&& 1 = b4 ∧
     (buildOr b0 b1 b2 b3 b4 b5 b6 b7 >>> 2) &&& 1 = b5 ∧
     (buildOr b0 b1 b2 b3 b4 b5 b6 b7 >>> 1) &&& 1 = b6 ∧
     (buildOr b0 b1 b2 b3 b4 b5 b6 b7 >>> 0) &&& 1 = b7) :=
  buildOr_facts_fin ⟨b0, h0⟩ ⟨b1, h1⟩ ⟨b2, h2⟩ ⟨b3, h3⟩ ⟨b4, h4⟩ ⟨b5, h5⟩ ⟨b6, h6⟩ ⟨b7, h7⟩

/-- Rebuilding a byte below 256 from its extracted bits gives it back. -/
theorem buildOr_rebuild_fin : ∀ B : Fin 256,
    buildOr (((B : Nat) >>> 7) &&& 1) (((B : Nat) >>> 6) &&& 1) (((B : Nat) >>> 5) &&& 1)
      (((B : Nat) >>> 4) &&& 1) (((B : Nat) >>> 3) &&& 1) (((B : Nat) >>> 2) &&& 1)
      (((B : Nat) >>> 1) &&& 1) (((B : Nat) >>> 0) &&& 1) = (B : Nat) := by
  decide

theorem buildOr_rebuild (B : Nat) (hB : B < 256) :
    buildOr ((B >>> 7) &&& 1) ((B >>> 6) &&& 1) ((B >>> 5) &&& 1) ((B >>> 4) &&& 1)
      ((B >>> 3) &&& 1) ((B >>> 2) &&& 1) ((B >>> 1) &&& 1) ((B >>> 0) &&& 1) = B :=
  buildOr_rebuild_fin ⟨B, hB⟩

/-- For a valid color index the forward table yields exactly the bits of
the spec table, both below 2, and the reverse lookup of those bits (as
Python ints) returns the index. -/
theorem GB_MAPPING_char (c : Nat) (hc : c < 4) :
    GB_MAPPING c = some (specLowBit c, specHighBit c) ∧
    specLowBit c < 2 ∧ specHighBit c < 2 ∧
    GB_REVERSE (Int.ofNat (specLowBit c), Int.ofNat (specHighBit c)) = some c := by
  interval_cases c <;> exact ⟨rfl, by decide, by decide, rfl⟩

/-- On a nonnegative int the extracted plane bit is the Nat-level bit. -/
theorem ofNat_shr_land (m k : Nat) :
    ((Int.ofNat m) >>> k) &&& 1 = Int.ofNat ((m >>> k) &&& 1) := rfl

theorem pix_ofNat (m n bit : Nat) :
    pix (Int.ofNat m) (Int.ofNat n) bit =
      (GB_REVERSE (Int.ofNat ((m >>> bit) &&& 1), Int.ofNat ((n >>> bit) &&& 1))).getD 0 := rfl

theorem nat_bit01 (m k : Nat) : (m >>> k) &&& 1 = 0 ∨ (m >>> k) &&& 1 = 1 := by
  rw [Nat.and_one_is_mod]
  exact Nat.mod_two_eq_zero_or_one _

theorem nat_bit_lt (m k : Nat) : (m >>> k) &&& 1 < 2 := by
  rcases nat_bit01 m k with h | h <;> omega

/-- The forward table applied to a decoded pixel returns exactly the two
extracted bits. -/
theorem GB_MAPPING_pix (m n bit : Nat) :
    GB_MAPPING (pix (Int.ofNat m) (Int.ofNat n) bit) =
      some ((m >>> bit) &&& 1, (n >>> bit) &&& 1) := by
  rw [pix_ofNat]
  rcases nat_bit01 m bit with h1 | h1 <;> rcases nat_bit01 n bit with h2 | h2 <;>
    rw [h1, h2] <;> rfl

/-- Symbolic evaluation of the per-row encoder on an explicit row. -/
theorem rowLowHigh_eq (c0 c1 c2 c3 c4 c5 c6 c7 lo0 hi0 lo1 hi1 lo2 hi2 lo3 hi3
    lo4 hi4 lo5 hi5 lo6 hi6 lo7 hi7 : Nat)
    (h0 : GB_MAPPING c0 = some (lo0, hi0)) (h1 : GB_MAPPING c1 = some (lo1, hi1))
    (h2 : GB_MAPPING c2 = some (lo2, hi2)) (h3 : GB_MAPPING c3 = some (lo3, hi3))
    (h4 : GB_MAPPING c4 = some (lo4, hi4)) (h5 : GB_MAPPING c5 = some (lo5, hi5))
    (h6 : GB_MAPPING c6 = some (lo6, hi6)) (h7 : GB_MAPPING c7 = some (lo7, hi7)) :
    rowLowHigh [c0, c1, c2, c3, c4, c5, c6, c7] =
      some (buildOr lo0 lo1 lo2 lo3 lo4 lo5 lo6 lo7, buildOr hi0 hi1 hi2 hi3 hi4 hi5 hi6 hi7) := by
  simp [rowLowHigh, range_eight, buildOr, h0, h1, h2, h3, h4, h5, h6, h7]

/-- Symbolic evaluation of `grid_to_tile_bytes` on an explicit grid. -/
theorem grid_to_tile_bytes_eq (r0 r1 r2 r3 r4 r5 r6 r7 : List Nat)
    (L0 H0 L1 H1 L2 H2 L3 H3 L4 H4 L5 H5 L6 H6 L7 H7 : Nat)
    (h0 : rowLowHigh r0 = some (L0, H0)) (h1 : rowLowHigh r1 = some (L1, H1))
    (h2 : rowLowHigh r2 = some (L2, H2)) (h3 : rowLowHigh r3 = some (L3, H3))
    (h4 : rowLowHigh r4 = some (L4, H4)) (h5 : rowLowHigh r5 = some (L5, H5))
    (h6 : rowLowHigh r6 = some (L6, H6)) (h7 : rowLowHigh r7 = some (L7, H7)) :
    grid_to_tile_bytes [r0, r1, r2, r3, r4, r5, r6, r7] =
      some [L0, H0, L1, H1, L2, H2, L3, H3, L4, H4, L5, H5, L6, H6, L7, H7] := by
  simp [grid_to_tile_bytes, range_eight, h0, h1, h2, h3, h4, h5, h6, h7]

/-- Symbolic evaluation of the pair swap on an explicit 16-element list. -/
theorem to_little_endian_pairs_eq {α : Type}
    (a0 b0 a1 b1 a2 b2 a3 b3 a4 b4 a5 b5 a6 b6 a7 b7 : α) :
    to_little_endian_pairs [a0, b0, a1, b1, a2, b2, a3, b3, a4, b4, a5, b5, a6, b6, a7, b7] =
      some [b0, a0, b1, a1, b2, a2, b3, a3, b4, a4, b5, a5, b6, a6, b7, a7] := rfl

/-- Symbolic evaluation of the swap-undo loop on an explicit 16-element
list. -/
theorem unswap_eq (a0 b0 a1 b1 a2 b2 a3 b3 a4 b4 a5 b5 a6 b6 a7 b7 : Int) :
    unswap [a0, b0, a1, b1, a2, b2, a3, b3, a4, b4, a5, b5, a6, b6, a7, b7] =
      some [b0, a0, b1, a1, b2, a2, b3, a3, b4, a4, b5, a5, b6, a6, b7, a7] := rfl

/-- One full inner pixel loop succeeds on any 8-cell row of the grid and
replaces that row with the decoded pixels. -/
theorem decodeRowPx_eq (low high : Int) (row : Nat) (g : List (List Nat))
    (hlt : row < g.length) (hlen : (g[row]?.getD []).length = 8) :
    decodeRowPx [0, 1, 2, 3, 4, 5, 6, 7] low high row g = (g.set row (pixRow low high), true) := by
  obtain ⟨r, hg⟩ : ∃ r, g[row]? = some r := by
    rw [List.getElem?_eq_getElem hlt]; exact ⟨_, rfl⟩
  rw [hg] at hlen
  simp only [Option.getD_some] at hlen
  obtain ⟨a0, a1, a2, a3, a4, a5, a6, a7, rfl⟩ :
      ∃ a0 a1 a2 a3 a4 a5 a6 a7, r = [a0, a1, a2, a3, a4, a5, a6, a7] := by
    match r, hlen with
    | [a0, a1, a2, a3, a4, a5, a6, a7], _ => exact ⟨_, _, _, _, _, _, _, _, rfl⟩
  have hset : ∀ L : List Nat, (g.set row L)[row]? = some L :=
    fun L => List.getElem?_set_self hlt
  simp [decodeRowPx, rev_bits, setCell, hg, hset, List.set_set, pixRow]

/-- The full decode loop on an explicit 16-byte tile and an explicit
8x8 grid: every lookup succeeds, every row is replaced, no error. -/
theorem decodeRows_eq (t0 t1 t2 t3 t4 t5 t6 t7 t8 t9 t10 t11 t12 t13 t14 t15 : Int)
    (r0 r1 r2 r3 r4 r5 r6 r7 : List Nat)
    (e0 : r0.length = 8) (e1 : r1.length = 8) (e2 : r2.length = 8) (e3 : r3.length = 8)
    (e4 : r4.length = 8) (e5 : r5.length = 8) (e6 : r6.length = 8) (e7 : r7.length = 8) :
    decodeRows (List.range GRID)
        [t0, t1, t2, t3, t4, t5, t6, t7, t8, t9, t10, t11, t12, t13, t14, t15]
        [r0, r1, r2, r3, r4, r5, r6, r7] =
      ([pixRow t0 t1, pixRow t2 t3, pixRow t4 t5, pixRow t6 t7,
        pixRow t8 t9, pixRow t10 t11, pixRow t12 t13, pixRow t14 t15], none) := by
  obtain ⟨a0, a1, a2, a3, a4, a5, a6, a7, rfl⟩ :
      ∃ a0 a1 a2 a3 a4 a5 a6 a7, r0 = [a0, a1, a2, a3, a4, a5, a6, a7] := by
    match r0, e0 with
    | [a0, a1, a2, a3, a4, a5, a6, a7], _ => exact ⟨_, _, _, _, _, _, _, _, rfl⟩
  obtain ⟨b0, b1, b2, b3, b4, b5, b6, b7, rfl⟩ :
      ∃ b0 b1 b2 b3 b4 b5 b6 b7, r1 = [b0, b1, b2, b3, b4, b5, b6, b7] := by
    match r1, e1 with
    | [b0, b1, b2, b3, b4, b5, b6, b7], _ => exact ⟨_, _, _, _, _, _, _, _, rfl⟩
  obtain ⟨c0, c1, c2, c3, c4, c5, c6, c7, rfl⟩ :
      ∃ c0 c1 c2 c3 c4 c5 c6 c7, r2 = [c0, c1, c2, c3, c4, c5, c6, c7] := by
    match r2, e2 with
    | [c0, c1, c2, c3, c4, c5, c6, c7], _ => exact ⟨_, _, _, _, _, _, _, _, rfl⟩
  obtain ⟨d0, d1, d2, d3, d4, d5, d6, d7, rfl⟩ :
      ∃ d0 d1 d2 d3 d4 d5 d6 d7, r3 = [d0, d1, d2, d3, d4, d5, d6, d7] := by
    match r3, e3 with
    | [d0, d1, d2, d3, d4, d5, d6, d7], _ => exact ⟨_, _, _, _, _, _, _, _, rfl⟩
  obtain ⟨f0, f1, f2, f3, f4, f5, f6, f7, rfl⟩ :
      ∃ f0 f1 f2 f3 f4 f5 f6 f7, r4 = [f0, f1, f2, f3, f4, f5, f6, f7] := by
    match r4, e4 with
    | [f0, f1, f2, f3, f4, f5, f6, f7], _ => exact ⟨_, _, _, _, _, _, _, _, rfl⟩
  obtain ⟨k0, k1, k2, k3, k4, k5, k6, k7, rfl⟩ :
      ∃ k0 k1 k2 k3 k4 k5 k6 k7, r5 = [k0, k1, k2, k3, k4, k5, k6, k7] := by
    match r5, e5 with
    | [k0, k1, k2, k3, k4, k5, k6, k7], _ => exact ⟨_, _, _, _, _, _, _, _, rfl⟩
  obtain ⟨m0, m1, m2, m3, m4, m5, m6, m7, rfl⟩ :
      ∃ m0 m1 m2 m3 m4 m5 m6 m7, r6 = [m0, m1, m2, m3, m4, m5, m6, m7] := by
    match r6, e6 with
    | [m0, m1, m2, m3, m4, m5, m6, m7], _ => exact ⟨_, _, _, _, _, _, _, _, rfl⟩
  obtain ⟨p0, p1, p2, p3, p4, p5, p6, p7, rfl⟩ :
      ∃ p0 p1 p2 p3 p4 p5 p6 p7, r7 = [p0, p1, p2, p3, p4, p5, p6, p7] := by
    match r7, e7 with
    | [p0, p1, p2, p3, p4, p5, p6, p7], _ => exact ⟨_, _, _, _, _, _, _, _, rfl⟩
  simp [decodeRows, range_eight, decodeRowPx_eq]

theorem pySplitAux_token (t : List Char) (ht : t.all (fun c => !isPyWhitespace c) = true) :
    ∀ (rest acc : List Char), pySplitAux (t ++ rest) acc = pySplitAux rest (t.reverse ++ acc) := by
  induction t with
  | nil => intro rest acc; simp
  | cons c t ih =>
    intro rest acc
    simp only [List.all_cons, Bool.and_eq_true, Bool.not_eq_true'] at ht
    simp only [List.cons_append, pySplitAux, ht.1, Bool.false_eq_true, if_false, List.append_eq]
    rw [ih ht.2]
    simp

theorem reverse_of_ne_nil (t : List Char) (hne : t.isEmpty = false) :
    ∃ b bs, t.reverse = b :: bs := by
  cases hr : t.reverse with
  | nil =>
    rw [List.reverse_eq_nil_iff] at hr
    subst hr
    simp at hne
  | cons b bs => exact ⟨b, bs, rfl⟩

/-- Splitting the single-space join of nonempty whitespace-free tokens
recovers exactly those tokens. -/
theorem pySplit_joinSpace (ts : List (List Char)) (h : ∀ t ∈ ts, tokenOk t = true) :
    pySplit (joinSpace ts) = ts := by
  induction ts with
  | nil => rfl
  | cons t ts ih =>
    have ht := h t (by simp)
    simp only [tokenOk, Bool.and_eq_true, Bool.not_eq_true'] at ht
    obtain ⟨hne, hnw⟩ := ht
    obtain ⟨b, bs, hb⟩ := reverse_of_ne_nil t hne
    cases ts with
    | nil =>
      show pySplitAux (joinSpace [t]) [] = [t]
      have hj : joinSpace [t] = t ++ [] := by simp [joinSpace]
      rw [hj, pySplitAux_token t hnw, List.append_nil, hb]
      show pySplitAux [] (b :: bs) = [t]
      have hbe : (b :: bs).isEmpty = false := rfl
      simp only [pySplitAux, hbe, Bool.false_eq_true, if_false]
      rw [← hb, List.reverse_reverse]
    | cons t2 ts2 =>
      show pySplitAux (joinSpace (t :: t2 :: ts2)) [] = t :: t2 :: ts2
      have hj : joinSpace (t :: t2 :: ts2) = t ++ (' ' :: joinSpace (t2 :: ts2)) := rfl
      rw [hj, pySplitAux_token t hnw, List.append_nil, hb]
      show pySplitAux (' ' :: joinSpace (t2 :: ts2)) (b :: bs) = t :: t2 :: ts2
      have hws : isPyWhitespace ' ' = true := rfl
      simp only [pySplitAux, hws, if_true, List.isEmpty_cons, Bool.false_eq_true, if_false]
      rw [← hb, List.reverse_reverse]
      have hpp : pySplitAux (joinSpace (t2 :: ts2)) [] = pySplit (joinSpace (t2 :: ts2)) := rfl
      rw [hpp, ih (fun x hx => h x (by simp [hx]))]

theorem char_eq_lit (c d : Char) (n : Nat) (h1 : c.toNat = n) (h2 : d.toNat = n) : c = d := by
  apply Char.ext
  apply UInt32.ext
  show c.toNat = d.toNat
  omega

/-- A character accepted as a hex digit is one of the 22 entries of
`hexPairs`, paired with its value. -/
theorem hexDigitVal_mem (c : Char) (v : Nat) (h : hexDigitVal c = some v) :
    (c, v) ∈ hexPairs := by
  unfold hexDigitVal at h
  split_ifs at h with h1 h2 h3
  · injection h with hv
    obtain ⟨hb1, hb2⟩ := ‹_ ∧ _›
    set n := c.toNat with hn
    interval_cases n
    · have hc : c = '0' := char_eq_lit c '0' 48 (by omega) (by decide)
      subst hc
      have hv2 : v = 0 := by omega
      subst hv2
      decide
    · have hc : c = '1' := char_eq_lit c '1' 49 (by omega) (by decide)
      subst hc
      have hv2 : v = 1 := by omega
      subst hv2
      decide
    · have hc : c = '2' := char_eq_lit c '2' 50 (by omega) (by decide)
      subst hc
      have hv2 : v = 2 := by omega
      subst hv2
      decide
    · have hc : c = '3' := char_eq_lit c '3' 51 (by omega) (by decide)
      subst hc
      have hv2 : v = 3 := by omega
      subst hv2
      decide
    · have hc : c = '4' := char_eq_lit c '4' 52 (by omega) (by decide)
      subst hc
      have hv2 : v = 4 := by omega
      subst hv2
      decide
    · have hc : c = '5' := char_eq_lit c '5' 53 (by omega) (by decide)
      subst hc
      have hv2 : v = 5 := by omega
      subst hv2
      decide
    · have hc : c = '6' := char_eq_lit c '6' 54 (by omega) (by decide)
      subst hc
      have hv2 : v = 6 := by omega
      subst hv2
      decide
    · have hc : c = '7' := char_eq_lit c '7' 55 (by omega) (by decide)
      subst hc
      have hv2 : v = 7 := by omega
      subst hv2
      decide
    · have hc : c = '8' := char_eq_lit c '8' 56 (by omega) (by decide)
      subst hc
      have hv2 : v = 8 := by omega
      subst hv2
      decide
    · have hc : c = '9' := char_eq_lit c '9' 57 (by omega) (by decide)
      subst hc
      have hv2 : v = 9 := by omega
      subst hv2
      decide
  · injection h with hv
    obtain ⟨hb1, hb2⟩ := ‹_ ∧ _›
    set n := c.toNat with hn
    interval_cases n
    · have hc : c = 'a' := char_eq_lit c 'a' 97 (by omega) (by decide)
      subst hc
      have hv2 : v = 10 := by omega
      subst hv2
      decide
    · have hc : c = 'b' := char_eq_lit c 'b' 98 (by omega) (by decide)
      subst hc
      have hv2 : v = 11 := by omega
      subst hv2
      decide
    · have hc : c = 'c' := char_eq_lit c 'c' 99 (by omega) (by decide)
      subst hc
      have hv2 : v = 12 := by omega
      subst hv2
      decide
    · have hc : c = 'd' := char_eq_lit c 'd' 100 (by omega) (by decide)
      subst hc
      have hv2 : v = 13 := by omega
      subst hv2
      decide
    · have hc : c = 'e' := char_eq_lit c 'e' 101 (by omega) (by decide)
      subst hc
      have hv2 : v = 14 := by omega
      subst hv2
      decide
    · have hc : c = 'f' := char_eq_lit c 'f' 102 (by omega) (by decide)
      subst hc
      have hv2 : v = 15 := by omega
      subst hv2
      decide
  · injection h with hv
    obtain ⟨hb1, hb2⟩ := ‹_ ∧ _›
    set n := c.toNat with hn
    interval_cases n
    · have hc : c = 'A' := char_eq_lit c 'A' 65 (by omega) (by decide)
      subst hc
      have hv2 : v = 10 := by omega
      subst hv2
      decide
    · have hc : c = 'B' := char_eq_lit c 'B' 66 (by omega) (by decide)
      subst hc
      have hv2 : v = 11 := by omega
      subst hv2
      decide
    · have hc : c = 'C' := char_eq_lit c 'C' 67 (by omega) (by decide)
      subst hc
      have hv2 : v = 12 := by omega
      subst hv2
      decide
    · have hc : c = 'D' := char_eq_lit c 'D' 68 (by omega) (by decide)
      subst hc
      have hv2 : v = 13 := by omega
      subst hv2
      decide
    · have hc : c = 'E' := char_eq_lit c 'E' 69 (by omega) (by decide)
      subst hc
      have hv2 : v = 14 := by omega
      subst hv2
      decide
    · have hc : c = 'F' := char_eq_lit c 'F' 70 (by omega) (by decide)
      subst hc
      have hv2 : v = 15 := by omega
      subst hv2
      decide

theorem hexDigitVal_lt (c : Char) (v : Nat) (h : hexDigitVal c = some v) : v < 16 := by
  unfold hexDigitVal at h
  split_ifs at h with h1 h2 h3
  · injection h with hv
    omega
  · injection h with hv
    omega
  · injection h with hv
    omega

theorem hexDigitVal_upper (c : Char) (v : Nat) (h : hexDigitVal c = some v) :
    hexDigitChar v = Char.toUpper c := by
  have hall : ∀ p ∈ hexPairs, hexDigitChar p.2 = Char.toUpper p.1 := by decide
  exact hall _ (hexDigitVal_mem c v h)

theorem hexDigitVal_not_special (c : Char) (v : Nat) (h : hexDigitVal c = some v) :
    c ≠ '+' ∧ c ≠ '-' ∧ c ≠ 'x' ∧ c ≠ 'X' ∧ c ≠ '_' := by
  have hall : ∀ p ∈ hexPairs,
      p.1 ≠ '+' ∧ p.1 ≠ '-' ∧ p.1 ≠ 'x' ∧ p.1 ≠ 'X' ∧ p.1 ≠ '_' := by decide
  exact hall _ (hexDigitVal_mem c v h)

theorem parseHexDigitsGo_single (acc : Nat) (b : Char) (vb : Nat)
    (hb : hexDigitVal b = some vb) :
    parseHexDigitsGo acc [b] = some (16 * acc + vb) := by
  unfold parseHexDigitsGo
  split
  · rename_i heq
    exact absurd heq (by simp)
  · rename_i c cs heq
    injection heq with e1 e2
    exact absurd e2 (by simp)
  · rename_i hno heq
    injection heq with e1 e2
    subst e1
    subst e2
    rw [hb]
    rfl

theorem parseHexDigits_two (a b : Char) (va vb : Nat)
    (ha : hexDigitVal a = some va) (hb : hexDigitVal b = some vb) :
    parseHexDigits [a, b] = some (16 * va + vb) := by
  show (match [a, b] with
    | [] => none
    | c :: cs =>
      match hexDigitVal c with
      | some v => parseHexDigitsGo v cs
      | none => none) = some (16 * va + vb)
  simp only [ha]
  exact parseHexDigitsGo_single va b vb hb

theorem parseHexBody_two (a b : Char) (va vb : Nat)
    (ha : hexDigitVal a = some va) (hb : hexDigitVal b = some vb) :
    parseHexBody [a, b] = some (16 * va + vb) := by
  obtain ⟨_, _, hb3, hb4, _⟩ := hexDigitVal_not_special b vb hb
  by_cases ha0 : a = '0'
  · subst ha0
    show (if b = 'x' ∨ b = 'X' then
        match ([] : List Char) with
        | '_' :: rest2 => parseHexDigits rest2
        | _ => parseHexDigits []
      else parseHexDigits ['0', b]) = some (16 * va + vb)
    rw [if_neg (by simp [hb3, hb4])]
    exact parseHexDigits_two '0' b va vb ha hb
  · unfold parseHexBody
    split
    · next x rest heq =>
      injection heq with h1 _
      exact absurd h1 ha0
    · exact parseHexDigits_two a b va vb ha hb

/-- A two-hex-digit token parses under `int(tok, 16)` to the expected
byte value. -/
theorem pyIntBase16_two (a b : Char) (va vb : Nat)
    (ha : hexDigitVal a = some va) (hb : hexDigitVal b = some vb) :
    pyIntBase16 [a, b] = some (Int.ofNat (16 * va + vb)) := by
  obtain ⟨ha1, ha2, _, _, _⟩ := hexDigitVal_not_special a va ha
  unfold pyIntBase16
  split
  · next rest heq =>
    injection heq with h1 _
    exact absurd h1 ha1
  · next rest heq =>
    injection heq with h1 _
    exact absurd h1 ha2
  · rw [parseHexBody_two a b va vb ha hb]
    rfl

theorem format02X_spec_fin : ∀ b : Fin 256, format02X b = specHexToken b := by decide

theorem format02X_spec_lt (b : Nat) (hb : b < 256) : format02X b = specHexToken b :=
  format02X_spec_fin ⟨b, hb⟩

theorem format02X_tokenOk_fin : ∀ b : Fin 256, tokenOk (format02X b) = true := by decide

theorem format02X_tokenOk_lt (b : Nat) (hb : b < 256) : tokenOk (format02X b) = true :=
  format02X_tokenOk_fin ⟨b, hb⟩

/-- Re-parsing a rendered byte gives the byte back. -/
theorem parse_format02X_fin : ∀ b : Fin 256, pyIntBase16 (format02X b) = some (Int.ofNat b) := by
  decide

theorem parse_format02X_lt (b : Nat) (hb : b < 256) :
    pyIntBase16 (format02X b) = some (Int.ofNat b) :=
  parse_format02X_fin ⟨b, hb⟩

theorem range_eight_plain : List.range 8 = [0, 1, 2, 3, 4, 5, 6, 7] := rfl

/-- Per-row encode/decode facts for a row of valid color indices: the
encoder produces exactly the spec's plane bytes, both below 256, and the
decode loop recovers the row from them. -/
theorem row_master (c0 c1 c2 c3 c4 c5 c6 c7 : Nat)
    (h0 : c0 < 4) (h1 : c1 < 4) (h2 : c2 < 4) (h3 : c3 < 4)
    (h4 : c4 < 4) (h5 : c5 < 4) (h6 : c6 < 4) (h7 : c7 < 4) :
    ∃ L H : Nat,
      rowLowHigh [c0, c1, c2, c3, c4, c5, c6, c7] = some (L, H) ∧
      L = specRowByte specLowBit [c0, c1, c2, c3, c4, c5, c6, c7] ∧
      H = specRowByte specHighBit [c0, c1, c2, c3, c4, c5, c6, c7] ∧
      L < 256 ∧ H < 256 ∧ pixRow (Int.ofNat L) (Int.ofNat H) = [c0, c1, c2, c3, c4, c5, c6, c7] := by
  obtain ⟨m0, l0, i0, r0⟩ := GB_MAPPING_char c0 h0
  obtain ⟨m1, l1, i1, r1⟩ := GB_MAPPING_char c1 h1
  obtain ⟨m2, l2, i2, r2⟩ := GB_MAPPING_char c2 h2
  obtain ⟨m3, l3, i3, r3⟩ := GB_MAPPING_char c3 h3
  obtain ⟨m4, l4, i4, r4⟩ := GB_MAPPING_char c4 h4
  obtain ⟨m5, l5, i5, r5⟩ := GB_MAPPING_char c5 h5
  obtain ⟨m6, l6, i6, r6⟩ := GB_MAPPING_char c6 h6
  obtain ⟨m7, l7, i7, r7⟩ := GB_MAPPING_char c7 h7
  obtain ⟨bndL, sumL, eL7, eL6, eL5, eL4, eL3, eL2, eL1, eL0⟩ :=
    buildOr_facts _ _ _ _ _ _ _ _ l0 l1 l2 l3 l4 l5 l6 l7
  obtain ⟨bndH, sumH, eH7, eH6, eH5, eH4, eH3, eH2, eH1, eH0⟩ :=
    buildOr_facts _ _ _ _ _ _ _ _ i0 i1 i2 i3 i4 i5 i6 i7
  refine ⟨buildOr (specLowBit c0) (specLowBit c1) (specLowBit c2) (specLowBit c3)
      (specLowBit c4) (specLowBit c5) (specLowBit c6) (specLowBit c7),
    buildOr (specHighBit c0) (specHighBit c1) (specHighBit c2) (specHighBit c3)
      (specHighBit c4) (specHighBit c5) (specHighBit c6) (specHighBit c7),
    ?_, ?_, ?_, bndL, bndH, ?_⟩
  · exact rowLowHigh_eq _ _ _ _ _ _ _ _ _ _ _ _ _ _ _ _ _ _ _ _ _ _ _ _
      m0 m1 m2 m3 m4 m5 m6 m7
  · rw [sumL]
    simp [specRowByte, range_eight_plain]
  · rw [sumH]
    simp [specRowByte, range_eight_plain]
  · simp only [pixRow, pix_ofNat, eL7, eL6, eL5, eL4, eL3, eL2, eL1, eL0,
      eH7, eH6, eH5, eH4, eH3, eH2, eH1, eH0, r0, r1, r2, r3, r4, r5, r6, r7,
      Option.getD_some]

/-- Re-encoding the decoded pixel row of two plane bytes below 256 gives
back exactly those bytes. -/
theorem row_reencode (L H : Nat) (hL : L < 256) (hH : H < 256) :
    rowLowHigh (pixRow (Int.ofNat L) (Int.ofNat H)) = some (L, H) := by
  have he := rowLowHigh_eq
    (pix (Int.ofNat L) (Int.ofNat H) 7) (pix (Int.ofNat L) (Int.ofNat H) 6)
    (pix (Int.ofNat L) (Int.ofNat H) 5) (pix (Int.ofNat L) (Int.ofNat H) 4)
    (pix (Int.ofNat L) (Int.ofNat H) 3) (pix (Int.ofNat L) (Int.ofNat H) 2)
    (pix (Int.ofNat L) (Int.ofNat H) 1) (pix (Int.ofNat L) (Int.ofNat H) 0)
    _ _ _ _ _ _ _ _ _ _ _ _ _ _ _ _
    (GB_MAPPING_pix L H 7) (GB_MAPPING_pix L H 6) (GB_MAPPING_pix L H 5) (GB_MAPPING_pix L H 4)
    (GB_MAPPING_pix L H 3) (GB_MAPPING_pix L H 2) (GB_MAPPING_pix L H 1) (GB_MAPPING_pix L H 0)
  show rowLowHigh (pixRow (Int.ofNat L) (Int.ofNat H)) = some (L, H)
  rw [pixRow, he, buildOr_rebuild L hL, buildOr_rebuild H hH]

/-- An editor grid destructures into eight rows of eight bounded cells. -/
theorem ValidGrid_destruct (g : List (List Nat)) (hg : ValidGrid g) :
    ∃ r0 r1 r2 r3 r4 r5 r6 r7,
      g = [r0, r1, r2, r3, r4, r5, r6, r7] ∧
      (r0.length = 8 ∧ ∀ c ∈ r0, c < 4) ∧ (r1.length = 8 ∧ ∀ c ∈ r1, c < 4) ∧
      (r2.length = 8 ∧ ∀ c ∈ r2, c < 4) ∧ (r3.length = 8 ∧ ∀ c ∈ r3, c < 4) ∧
      (r4.length = 8 ∧ ∀ c ∈ r4, c < 4) ∧ (r5.length = 8 ∧ ∀ c ∈ r5, c < 4) ∧
      (r6.length = 8 ∧ ∀ c ∈ r6, c < 4) ∧ (r7.length = 8 ∧ ∀ c ∈ r7, c < 4) := by
  obtain ⟨hlen, hrows⟩ := hg
  obtain ⟨r0, r1, r2, r3, r4, r5, r6, r7, rfl⟩ :
      ∃ r0 r1 r2 r3 r4 r5 r6 r7, g = [r0, r1, r2, r3, r4, r5, r6, r7] := by
    match g, hlen with
    | [r0, r1, r2, r3, r4, r5, r6, r7], _ => exact ⟨_, _, _, _, _, _, _, _, rfl⟩
  refine ⟨r0, r1, r2, r3, r4, r5, r6, r7, rfl, ?_, ?_, ?_, ?_, ?_, ?_, ?_, ?_⟩ <;>
    exact hrows _ (by simp)

/-- A valid row destructures into eight bounded cells. -/
theorem row_destruct (r : List Nat) (hlen : r.length = 8) (hc : ∀ c ∈ r, c < 4) :
    ∃ c0 c1 c2 c3 c4 c5 c6 c7,
      r = [c0, c1, c2, c3, c4, c5, c6, c7] ∧
      c0 < 4 ∧ c1 < 4 ∧ c2 < 4 ∧ c3 < 4 ∧ c4 < 4 ∧ c5 < 4 ∧ c6 < 4 ∧ c7 < 4 := by
  obtain ⟨c0, c1, c2, c3, c4, c5, c6, c7, rfl⟩ :
      ∃ c0 c1 c2 c3 c4 c5 c6 c7, r = [c0, c1, c2, c3, c4, c5, c6, c7] := by
    match r, hlen with
    | [c0, c1, c2, c3, c4, c5, c6, c7], _ => exact ⟨_, _, _, _, _, _, _, _, rfl⟩
  refine ⟨c0, c1, c2, c3, c4, c5, c6, c7, rfl, ?_, ?_, ?_, ?_, ?_, ?_, ?_, ?_⟩ <;>
    exact hc _ (by simp)

theorem parseTokens_length (ts : List (List Char)) (vs : List Int)
    (h : parseTokens ts = some vs) : vs.length = ts.length := by
  induction ts generalizing vs with
  | nil =>
    simp only [parseTokens] at h
    injection h with h
    subst h
    rfl
  | cons t ts ih =>
    simp only [parseTokens] at h
    cases h1 : pyIntBase16 t with
    | none => rw [h1] at h; exact absurd h (by simp)
    | some v =>
      rw [h1] at h
      cases h2 : parseTokens ts with
      | none => rw [h2] at h; exact absurd h (by simp)
      | some vs2 =>
        rw [h2] at h
        injection h with h
        subst h
        simp [ih vs2 h2]

theorem parseTokens_none_iff (ts : List (List Char)) :
    parseTokens ts = none ↔ ∃ t ∈ ts, pyIntBase16 t = none := by
  induction ts with
  | nil => simp [parseTokens]
  | cons t ts ih =>
    simp only [parseTokens]
    cases h1 : pyIntBase16 t with
    | none => simp [h1]
    | some v =>
      cases h2 : parseTokens ts with
      | none =>
        have hex2 := ih.mp h2
        simp only [List.mem_cons]
        constructor
        · intro _
          obtain ⟨u, hu, hn⟩ := hex2
          exact ⟨u, Or.inr hu, hn⟩
        · intro _
          trivial
      | some vs =>
        simp only [List.mem_cons]
        constructor
        · intro hcontra
          cases hcontra
        · rintro ⟨u, hu | hu, hn⟩
          · subst hu
            rw [hn] at h1
            cases h1
          · have hpt := ih.mpr ⟨u, hu, hn⟩
            rw [hpt] at h2
            cases h2

/-- The decode row loop can only finish cleanly or with the color-bits
dialog: the length and hex dialogs are reported before it runs. -/
theorem decodeRows_err (rows : List Nat) (tile : List Int) (g : List (List Nat)) :
    (decodeRows rows tile g).2 = none ∨
    (decodeRows rows tile g).2 = some DecodeError.invalidColorBits := by
  induction rows generalizing g with
  | nil => left; rfl
  | cons row rows ih =>
    cases h1 : tile[2 * row]? with
    | none => right; simp [decodeRows, h1]
    | some low =>
      cases h2 : tile[2 * row + 1]? with
      | none => right; simp [decodeRows, h1, h2]
      | some high =>
        rcases hpx : decodeRowPx (List.range GRID) low high row g with ⟨g2, flag⟩
        cases flag with
        | true =>
          simp only [decodeRows, h1, h2, hpx]
          exact ih g2
        | false =>
          right
          simp [decodeRows, h1, h2, hpx]

/-- One decoded pixel depends only on the plane bytes modulo 256. -/
theorem decodeRowPx_mod (xs : List Nat) (low high : Int) (row : Nat) (g : List (List Nat)) :
    decodeRowPx xs (low % 256) (high % 256) row g = decodeRowPx xs low high row g := by
  induction xs generalizing g with
  | nil => rfl
  | cons x xs ih =>
    have hb1 : ((low % 256) >>> (7 - x)) &&& 1 = (low >>> (7 - x)) &&& 1 :=
      mod256_bit low (7 - x) (by omega)
    have hb2 : ((high % 256) >>> (7 - x)) &&& 1 = (high >>> (7 - x)) &&& 1 :=
      mod256_bit high (7 - x) (by omega)
    simp only [decodeRowPx, hb1, hb2]
    cases hrev : GB_REVERSE ((low >>> (7 - x)) &&& 1, (high >>> (7 - x)) &&& 1) with
    | none => simp [hrev]
    | some idx =>
      simp only [hrev]
      cases hset : setCell g row x idx with
      | none => simp [hset]
      | some g2 =>
        simp only [hset]
        exact ih g2

/-- The decode row loop depends only on the tile bytes modulo 256. -/
theorem decodeRows_mod (rows : List Nat) (tile : List Int) (g : List (List Nat)) :
    decodeRows rows (tile.map (fun n => n % 256)) g = decodeRows rows tile g := by
  induction rows generalizing g with
  | nil => rfl
  | cons row rows ih =>
    cases h1 : tile[2 * row]? with
    | none => simp [decodeRows, h1, List.getElem?_map]
    | some low =>
      cases h2 : tile[2 * row + 1]? with
      | none => simp [decodeRows, h1, h2, List.getElem?_map]
      | some high =>
        simp only [decodeRows, List.getElem?_map, h1, h2, Option.map_some']
        rw [decodeRowPx_mod]
        rcases hpx : decodeRowPx (List.range GRID) low high row g with ⟨g2, flag⟩
        cases flag with
        | true => simp only [hpx]; exact ih g2
        | false => simp [hpx]

theorem list_sixteen {α : Type} (l : List α) (h : l.length = 16) :
    ∃ a0 a1 a2 a3 a4 a5 a6 a7 a8 a9 a10 a11 a12 a13 a14 a15,
      l = [a0, a1, a2, a3, a4, a5, a6, a7, a8, a9, a10, a11, a12, a13, a14, a15] := by
  match l, h with
  | [a0, a1, a2, a3, a4, a5, a6, a7, a8, a9, a10, a11, a12, a13, a14, a15], _ =>
    exact ⟨_, _, _, _, _, _, _, _, _, _, _, _, _, _, _, _, rfl⟩

theorem hex_changed_not16 (g : List (List Nat)) (text : List Char)
    (h : (pySplit text).length ≠ 16) :
    hex_changed g text = some (g, some DecodeError.malformedLength) := by
  simp only [hex_changed, if_pos h]

theorem hex_changed_parsefail (g : List (List Nat)) (text : List Char)
    (h16 : (pySplit text).length = 16) (hp : parseTokens (pySplit text) = none) :
    hex_changed g text = some (g, some DecodeError.invalidHexByte) := by
  simp only [hex_changed, h16, hp]
  rfl

theorem hex_changed_parsed (g : List (List Nat)) (text : List Char) (bytes : List Int)
    (h16 : (pySplit text).length = 16) (hp : parseTokens (pySplit text) = some bytes) :
    hex_changed g text = decode_tail g bytes := by
  simp only [hex_changed, h16, hp]
  rfl

/-- Fully explicit decode on an arbitrary 16-byte input and a valid grid:
the pair swap is undone and every row is replaced, with no error. -/
theorem decode_tail_eq (g : List (List Nat))
    (b0 b1 b2 b3 b4 b5 b6 b7 b8 b9 b10 b11 b12 b13 b14 b15 : Int) (hg : ValidGrid g) :
    decode_tail g [b0, b1, b2, b3, b4, b5, b6, b7, b8, b9, b10, b11, b12, b13, b14, b15] =
      some ([pixRow b1 b0, pixRow b3 b2, pixRow b5 b4, pixRow b7 b6,
             pixRow b9 b8, pixRow b11 b10, pixRow b13 b12, pixRow b15 b14], none) := by
  obtain ⟨r0, r1, r2, r3, r4, r5, r6, r7, rfl, h0, h1, h2, h3, h4, h5, h6, h7⟩ :=
    ValidGrid_destruct g hg
  unfold decode_tail
  rw [unswap_eq]
  simp only [Option.map_some']
  rw [decodeRows_eq _ _ _ _ _ _ _ _ _ _ _ _ _ _ _ _ _ _ _ _ _ _ _ _
    h0.1 h1.1 h2.1 h3.1 h4.1 h5.1 h6.1 h7.1]

/-- Whatever the input bytes, the decode stage can only end cleanly or
with the color-bits dialog. -/
theorem decode_tail_err (g : List (List Nat)) (bytes : List Int)
    (res : List (List Nat) × Option DecodeError) (h : decode_tail g bytes = some res) :
    res.2 = none ∨ res.2 = some DecodeError.invalidColorBits := by
  unfold decode_tail at h
  cases hu : unswap bytes with
  | none => rw [hu] at h; cases h
  | some tile =>
    rw [hu] at h
    simp only [Option.map_some'] at h
    injection h with h
    subst h
    exact decodeRows_err (List.range GRID) tile g

theorem twoHex_destruct (t : List Char) (ht : isTwoHexDigits t = true) :
    ∃ a b va vb, t = [a, b] ∧ hexDigitVal a = some va ∧ hexDigitVal b = some vb := by
  unfold isTwoHexDigits at ht
  split at ht
  · next a b =>
    simp only [Bool.and_eq_true, Option.isSome_iff_exists] at ht
    obtain ⟨⟨va, hva⟩, vb, hvb⟩ := ht
    exact ⟨a, b, va, vb, rfl, hva, hvb⟩
  · cases ht

theorem format02X_two (a b : Char) (va vb : Nat)
    (ha : hexDigitVal a = some va) (hb : hexDigitVal b = some vb) :
    format02X (16 * va + vb) = [Char.toUpper a, Char.toUpper b] := by
  have hva := hexDigitVal_lt a va ha
  have hvb := hexDigitVal_lt b vb hb
  rw [format02X_spec_lt _ (by omega)]
  unfold specHexToken
  have hdiv : (16 * va + vb) / 16 = va := by omega
  have hmod : (16 * va + vb) % 16 = vb := by omega
  rw [hdiv, hmod, hexDigitVal_upper a va ha, hexDigitVal_upper b vb hb]

/-- C6: the byte-pair swap transform is an involution: for every sequence
of exactly 16 bytes, applying `to_little_endian_pairs` twice returns the
original sequence (both applications succeeding). -/
theorem swap_involution {α : Type} (b : List α) (hb : b.length = 16) :
    ∃ b2, to_little_endian_pairs b = some b2 ∧ to_little_endian_pairs b2 = some b := by
  obtain ⟨a0, a1, a2, a3, a4, a5, a6, a7, a8, a9, a10, a11, a12, a13, a14, a15, rfl⟩ :=
    list_sixteen b hb
  exact ⟨_, to_little_endian_pairs_eq _ _ _ _ _ _ _ _ _ _ _ _ _ _ _ _,
    to_little_endian_pairs_eq _ _ _ _ _ _ _ _ _ _ _ _ _ _ _ _⟩

theorem swap_involution_witness :
    (([3, 1, 4, 1, 5, 9, 2, 6, 5, 3, 5, 8, 9, 7, 9, 3] : List Nat).length = 16) ∧
    ∃ b2, to_little_endian_pairs ([3, 1, 4, 1, 5, 9, 2, 6, 5, 3, 5, 8, 9, 7, 9, 3] : List Nat) =
        some b2 ∧
      to_little_endian_pairs b2 = some [3, 1, 4, 1, 5, 9, 2, 6, 5, 3, 5, 8, 9, 7, 9, 3] :=
  ⟨by decide, swap_involution _ (by decide)⟩

/-- C7: the color mapping is a total bijection over its 4 entries, with
the exact table 0 to (1,1), 1 to (1,0), 2 to (0,0), 3 to (0,1); composing
`GB_MAPPING` with `GB_REVERSE` is the identity on 0..3, and the four
forward entries cover all four bit pairs exactly once. -/
theorem mapping_bijection :
    (GB_MAPPING 0 = some (1, 1) ∧ GB_MAPPING 1 = some (1, 0) ∧
     GB_MAPPING 2 = some (0, 0) ∧ GB_MAPPING 3 = some (0, 1)) ∧
    (∀ i : Fin 4, (GB_MAPPING (i : Nat)).bind
        (fun p => GB_REVERSE (Int.ofNat p.1, Int.ofNat p.2)) = some (i : Nat)) ∧
    (∀ a b : Fin 2, ∃ i : Fin 4, GB_MAPPING (i : Nat) = some ((a : Nat), (b : Nat)) ∧
      ∀ j : Fin 4, GB_MAPPING (j : Nat) = some ((a : Nat), (b : Nat)) → j = i) := by
  decide

/-- C8: for every input string and caller grid, decode fails with the
MalformedLength error (leaving the grid unchanged) if and only if
splitting the string on whitespace yields a token count different
from 16. -/
theorem malformed_length_iff (g : List (List Nat)) (text : List Char) :
    hex_changed g text = some (g, some DecodeError.malformedLength) ↔
      (pySplit text).length ≠ 16 := by
  constructor
  · intro h
    by_contra hc
    cases hp : parseTokens (pySplit text) with
    | none =>
      rw [hex_changed_parsefail g text hc hp] at h
      simp at h
    | some bytes =>
      rw [hex_changed_parsed g text bytes hc hp] at h
      rcases decode_tail_err g bytes _ h with he | he <;> simp at he
  · intro h
    exact hex_changed_not16 g text h

theorem malformed_length_witness :
    (pySplit fifteenZeros).length ≠ 16 ∧
    hex_changed allWhite fifteenZeros = some (allWhite, some DecodeError.malformedLength) :=
  ⟨by decide, (malformed_length_iff allWhite fifteenZeros).mpr (by decide)⟩

/-- C3 (counterexample to the claim as stated): the input whose first
token is "100" — not a valid two-or-fewer-digit hex byte in [0,255] —
is accepted by decode without any error: the hex parser does not enforce
token length or byte range. -/
theorem invalid_hex_not_enforced_cx :
    hex_changed allWhite tokens100 = some (allDark, none) ∧
    claimValidByteToken ['1', '0', '0'] = false ∧
    ['1', '0', '0'] ∈ pySplit tokens100 := by
  refine ⟨by decide, by decide, by decide⟩

/-- C3 (amended): for every caller grid and input string, decode fails
with the InvalidHexByte error if and only if the input has exactly 16
tokens and some token fails Python's base-16 integer parse; tokens of
more than two digits, with sign, with an `0x` prefix, or with value
outside [0,255] parse successfully and are not rejected. -/
theorem invalid_hex_byte_iff (g : List (List Nat)) (text : List Char) :
    hex_changed g text = some (g, some DecodeError.invalidHexByte) ↔
      ((pySplit text).length = 16 ∧ ∃ t ∈ pySplit text, pyIntBase16 t = none) := by
  constructor
  · intro h
    by_cases h16 : (pySplit text).length = 16
    · refine ⟨h16, ?_⟩
      cases hp : parseTokens (pySplit text) with
      | none => exact (parseTokens_none_iff _).mp hp
      | some bytes =>
        rw [hex_changed_parsed g text bytes h16 hp] at h
        rcases decode_tail_err g bytes _ h with he | he <;> simp at he
    · rw [hex_changed_not16 g text h16] at h
      simp at h
  · rintro ⟨h16, hex⟩
    exact hex_changed_parsefail g text h16 ((parseTokens_none_iff _).mpr hex)

theorem invalid_hex_byte_iff_witness :
    ((pySplit tokensZZ).length = 16 ∧ ∃ t ∈ pySplit tokensZZ, pyIntBase16 t = none) ∧
    hex_changed allWhite tokensZZ = some (allWhite, some DecodeError.invalidHexByte) :=
  ⟨by decide, (invalid_hex_byte_iff allWhite tokensZZ).mpr (by decide)⟩

/-- C4: decode is atomic with respect to the caller's grid: whenever the
call reports any failure dialog, the 8x8 grid state after the call is
exactly the grid before it — no cell is partially overwritten. -/
theorem decode_failure_preserves_grid (g : List (List Nat)) (text : List Char)
    (g2 : List (List Nat)) (e : DecodeError) (hg : ValidGrid g)
    (h : hex_changed g text = some (g2, some e)) : g2 = g := by
  by_cases h16 : (pySplit text).length = 16
  · cases hp : parseTokens (pySplit text) with
    | none =>
      rw [hex_changed_parsefail g text h16 hp] at h
      simp only [Option.some.injEq, Prod.mk.injEq] at h
      exact h.1.symm
    | some bytes =>
      rw [hex_changed_parsed g text bytes h16 hp] at h
      have hlen : bytes.length = 16 := by
        rw [parseTokens_length _ _ hp]
        exact h16
      obtain ⟨b0, b1, b2, b3, b4, b5, b6, b7, b8, b9, b10, b11, b12, b13, b14, b15, rfl⟩ :=
        list_sixteen bytes hlen
      rw [decode_tail_eq _ _ _ _ _ _ _ _ _ _ _ _ _ _ _ _ _ hg] at h
      simp at h
  · rw [hex_changed_not16 g text h16] at h
    simp only [Option.some.injEq, Prod.mk.injEq] at h
    exact h.1.symm

theorem decode_failure_preserves_grid_witness :
    ValidGrid allWhite ∧
    hex_changed allWhite fifteenZeros = some (allWhite, some DecodeError.malformedLength) ∧
    allWhite = allWhite :=
  ⟨by unfold ValidGrid; decide, by decide,
    decode_failure_preserves_grid allWhite fifteenZeros allWhite DecodeError.malformedLength
      (by unfold ValidGrid; decide) (by decide)⟩

/-- C9: for every input that passes the token-count and hex-parse checks
(against a valid 8x8 grid), the InvalidColorBits branch is unreachable:
every extracted (low, high) bit pair lies in the reverse table's domain,
so the decode completes with no error. -/
theorem invalid_color_bits_unreachable (g : List (List Nat)) (text : List Char)
    (bytes : List Int) (hg : ValidGrid g) (h16 : (pySplit text).length = 16)
    (hp : parseTokens (pySplit text) = some bytes) :
    (∀ (low high : Int) (bit : Nat),
      (GB_REVERSE ((low >>> bit) &&& 1, (high >>> bit) &&& 1)).isSome = true) ∧
    ∃ g2, hex_changed g text = some (g2, none) := by
  refine ⟨fun low high bit => by rw [rev_bits]; rfl, ?_⟩
  have hlen : bytes.length = 16 := by
    rw [parseTokens_length _ _ hp]
    exact h16
  obtain ⟨b0, b1, b2, b3, b4, b5, b6, b7, b8, b9, b10, b11, b12, b13, b14, b15, rfl⟩ :=
    list_sixteen bytes hlen
  rw [hex_changed_parsed g text _ h16 hp,
    decode_tail_eq _ _ _ _ _ _ _ _ _ _ _ _ _ _ _ _ _ hg]
  exact ⟨_, rfl⟩

theorem invalid_color_bits_unreachable_witness :
    (ValidGrid allWhite ∧ (pySplit sixteenZeros).length = 16 ∧
      parseTokens (pySplit sixteenZeros) = some (List.replicate 16 (0 : Int))) ∧
    ((∀ (low high : Int) (bit : Nat),
        (GB_REVERSE ((low >>> bit) &&& 1, (high >>> bit) &&& 1)).isSome = true) ∧
      ∃ g2, hex_changed allWhite sixteenZeros = some (g2, none)) :=
  ⟨⟨by unfold ValidGrid; decide, by decide, by decide⟩,
    invalid_color_bits_unreachable allWhite sixteenZeros (List.replicate 16 (0 : Int))
      (by unfold ValidGrid; decide) (by decide) (by decide)⟩

/-- C10 (implicit): the grid produced by decode depends only on each
parsed token value modulo 256: two 16-token inputs whose parsed byte
lists agree modulo 256 decode identically, because the bit extraction
reads only bit positions 0 through 7 of each plane byte. -/
theorem decode_depends_mod256 (g : List (List Nat)) (t1 t2 : List Char) (u v : List Int)
    (h1 : (pySplit t1).length = 16) (p1 : parseTokens (pySplit t1) = some u)
    (h2 : (pySplit t2).length = 16) (p2 : parseTokens (pySplit t2) = some v)
    (hmod : u.map (fun n => n % 256) = v.map (fun n => n % 256)) :
    hex_changed g t1 = hex_changed g t2 := by
  have hlu : u.length = 16 := by rw [parseTokens_length _ _ p1]; exact h1
  have hlv : v.length = 16 := by rw [parseTokens_length _ _ p2]; exact h2
  obtain ⟨u0, u1, u2, u3, u4, u5, u6, u7, u8, u9, u10, u11, u12, u13, u14, u15, rfl⟩ :=
    list_sixteen u hlu
  obtain ⟨v0, v1, v2, v3, v4, v5, v6, v7, v8, v9, v10, v11, v12, v13, v14, v15, rfl⟩ :=
    list_sixteen v hlv
  rw [hex_changed_parsed g t1 _ h1 p1, hex_changed_parsed g t2 _ h2 p2]
  unfold decode_tail
  rw [unswap_eq, unswap_eq]
  simp only [Option.map_some']
  simp only [List.map_cons, List.map_nil, List.cons.injEq, and_true] at hmod
  obtain ⟨e0, e1, e2, e3, e4, e5, e6, e7, e8, e9, e10, e11, e12, e13, e14, e15⟩ := hmod
  have hmap : ([u1, u0, u3, u2, u5, u4, u7, u6, u9, u8, u11, u10, u13, u12, u15, u14] :
        List Int).map (fun n => n % 256) =
      ([v1, v0, v3, v2, v5, v4, v7, v6, v9, v8, v11, v10, v13, v12, v15, v14] :
        List Int).map (fun n => n % 256) := by
    simp only [List.map_cons, List.map_nil, List.cons.injEq, and_true]
    exact ⟨e1, e0, e3, e2, e5, e4, e7, e6, e9, e8, e11, e10, e13, e12, e15, e14⟩
  rw [← decodeRows_mod (List.range GRID)
        [u1, u0, u3, u2, u5, u4, u7, u6, u9, u8, u11, u10, u13, u12, u15, u14] g,
      ← decodeRows_mod (List.range GRID)
        [v1, v0, v3, v2, v5, v4, v7, v6, v9, v8, v11, v10, v13, v12, v15, v14] g,
      hmap]

theorem decode_depends_mod256_witness :
    ((pySplit tokens100).length = 16 ∧
      parseTokens (pySplit tokens100) = some ((256 : Int) :: List.replicate 15 0) ∧
      (pySplit sixteenZeros).length = 16 ∧
      parseTokens (pySplit sixteenZeros) = some (List.replicate 16 (0 : Int)) ∧
      ((256 : Int) :: List.replicate 15 0).map (fun n => n % 256) =
        (List.replicate 16 (0 : Int)).map (fun n => n % 256)) ∧
    hex_changed allWhite tokens100 = hex_changed allWhite sixteenZeros :=
  ⟨⟨by decide, by decide, by decide, by decide, by decide⟩,
    decode_depends_mod256 allWhite tokens100 sixteenZeros
      ((256 : Int) :: List.replicate 15 0) (List.replicate 16 (0 : Int))
      (by decide) (by decide) (by decide) (by decide) (by decide)⟩

/-- C1: for every 8x8 grid whose cells are all in {0,1,2,3} and every
valid caller grid, decoding the hex string produced by encode yields the
original grid with no error: decode (encode g) = g. -/
theorem decode_encode_roundtrip (g g0 : List (List Nat)) (hg : ValidGrid g) (hg0 : ValidGrid g0) :
    ∃ h : List Char, update_hex_display g = some h ∧ hex_changed g0 h = some (g, none) := by
  obtain ⟨r0, r1, r2, r3, r4, r5, r6, r7, rfl, q0, q1, q2, q3, q4, q5, q6, q7⟩ :=
    ValidGrid_destruct g hg
  obtain ⟨c00, c01, c02, c03, c04, c05, c06, c07, rfl, d00, d01, d02, d03, d04, d05, d06, d07⟩ :=
    row_destruct r0 q0.1 q0.2
  obtain ⟨c10, c11, c12, c13, c14, c15, c16, c17, rfl, d10, d11, d12, d13, d14, d15, d16, d17⟩ :=
    row_destruct r1 q1.1 q1.2
  obtain ⟨c20, c21, c22, c23, c24, c25, c26, c27, rfl, d20, d21, d22, d23, d24, d25, d26, d27⟩ :=
    row_destruct r2 q2.1 q2.2
  obtain ⟨c30, c31, c32, c33, c34, c35, c36, c37, rfl, d30, d31, d32, d33, d34, d35, d36, d37⟩ :=
    row_destruct r3 q3.1 q3.2
  obtain ⟨c40, c41, c42, c43, c44, c45, c46, c47, rfl, d40, d41, d42, d43, d44, d45, d46, d47⟩ :=
    row_destruct r4 q4.1 q4.2
  obtain ⟨c50, c51, c52, c53, c54, c55, c56, c57, rfl, d50, d51, d52, d53, d54, d55, d56, d57⟩ :=
    row_destruct r5 q5.1 q5.2
  obtain ⟨c60, c61, c62, c63, c64, c65, c66, c67, rfl, d60, d61, d62, d63, d64, d65, d66, d67⟩ :=
    row_destruct r6 q6.1 q6.2
  obtain ⟨c70, c71, c72, c73, c74, c75, c76, c77, rfl, d70, d71, d72, d73, d74, d75, d76, d77⟩ :=
    row_destruct r7 q7.1 q7.2
  obtain ⟨L0, H0, w0, s0, z0, lL0, lH0, px0⟩ :=
    row_master c00 c01 c02 c03 c04 c05 c06 c07 d00 d01 d02 d03 d04 d05 d06 d07
  obtain ⟨L1, H1, w1, s1, z1, lL1, lH1, px1⟩ :=
    row_master c10 c11 c12 c13 c14 c15 c16 c17 d10 d11 d12 d13 d14 d15 d16 d17
  obtain ⟨L2, H2, w2, s2, z2, lL2, lH2, px2⟩ :=
    row_master c20 c21 c22 c23 c24 c25 c26 c27 d20 d21 d22 d23 d24 d25 d26 d27
  obtain ⟨L3, H3, w3, s3, z3, lL3, lH3, px3⟩ :=
    row_master c30 c31 c32 c33 c34 c35 c36 c37 d30 d31 d32 d33 d34 d35 d36 d37
  obtain ⟨L4, H4, w4, s4, z4, lL4, lH4, px4⟩ :=
    row_master c40 c41 c42 c43 c44 c45 c46 c47 d40 d41 d42 d43 d44 d45 d46 d47
  obtain ⟨L5, H5, w5, s5, z5, lL5, lH5, px5⟩ :=
    row_master c50 c51 c52 c53 c54 c55 c56 c57 d50 d51 d52 d53 d54 d55 d56 d57
  obtain ⟨L6, H6, w6, s6, z6, lL6, lH6, px6⟩ :=
    row_master c60 c61 c62 c63 c64 c65 c66 c67 d60 d61 d62 d63 d64 d65 d66 d67
  obtain ⟨L7, H7, w7, s7, z7, lL7, lH7, px7⟩ :=
    row_master c70 c71 c72 c73 c74 c75 c76 c77 d70 d71 d72 d73 d74 d75 d76 d77
  have htile := grid_to_tile_bytes_eq _ _ _ _ _ _ _ _ _ _ _ _ _ _ _ _ _ _ _ _ _ _ _ _
    w0 w1 w2 w3 w4 w5 w6 w7
  have henc : update_hex_display [[c00, c01, c02, c03, c04, c05, c06, c07], [c10, c11, c12, c13, c14, c15, c16, c17], [c20, c21, c22, c23, c24, c25, c26, c27], [c30, c31, c32, c33, c34, c35, c36, c37], [c40, c41, c42, c43, c44, c45, c46, c47], [c50, c51, c52, c53, c54, c55, c56, c57], [c60, c61, c62, c63, c64, c65, c66, c67], [c70, c71, c72, c73, c74, c75, c76, c77]] =
      some (joinSpace [format02X H0, format02X L0, format02X H1, format02X L1, format02X H2, format02X L2, format02X H3, format02X L3, format02X H4, format02X L4, format02X H5, format02X L5, format02X H6, format02X L6, format02X H7, format02X L7]) := by
    unfold update_hex_display
    rw [htile]
    simp only [Option.some_bind]
    rw [to_little_endian_pairs_eq]
    simp only [Option.map_some']
    rfl
  refine ⟨_, henc, ?_⟩
  have hsplit : pySplit (joinSpace [format02X H0, format02X L0, format02X H1, format02X L1, format02X H2, format02X L2, format02X H3, format02X L3, format02X H4, format02X L4, format02X H5, format02X L5, format02X H6, format02X L6, format02X H7, format02X L7]) = [format02X H0, format02X L0, format02X H1, format02X L1, format02X H2, format02X L2, format02X H3, format02X L3, format02X H4, format02X L4, format02X H5, format02X L5, format02X H6, format02X L6, format02X H7, format02X L7] := by
    apply pySplit_joinSpace
    intro t ht
    simp only [List.mem_cons, List.not_mem_nil, or_false] at ht
    rcases ht with rfl | rfl | rfl | rfl | rfl | rfl | rfl | rfl | rfl | rfl | rfl | rfl | rfl | rfl | rfl | rfl <;>
      exact format02X_tokenOk_lt _ (by assumption)
  have hlen : (pySplit (joinSpace [format02X H0, format02X L0, format02X H1, format02X L1, format02X H2, format02X L2, format02X H3, format02X L3, format02X H4, format02X L4, format02X H5, format02X L5, format02X H6, format02X L6, format02X H7, format02X L7])).length = 16 := by
    rw [hsplit]
    rfl
  have hparse : parseTokens (pySplit (joinSpace [format02X H0, format02X L0, format02X H1, format02X L1, format02X H2, format02X L2, format02X H3, format02X L3, format02X H4, format02X L4, format02X H5, format02X L5, format02X H6, format02X L6, format02X H7, format02X L7])) =
      some [Int.ofNat H0, Int.ofNat L0, Int.ofNat H1, Int.ofNat L1, Int.ofNat H2, Int.ofNat L2, Int.ofNat H3, Int.ofNat L3, Int.ofNat H4, Int.ofNat L4, Int.ofNat H5, Int.ofNat L5, Int.ofNat H6, Int.ofNat L6, Int.ofNat H7, Int.ofNat L7] := by
    rw [hsplit]
    simp only [parseTokens, parse_format02X_lt H0 lH0, parse_format02X_lt L0 lL0,
      parse_format02X_lt H1 lH1, parse_format02X_lt L1 lL1,
      parse_format02X_lt H2 lH2, parse_format02X_lt L2 lL2,
      parse_format02X_lt H3 lH3, parse_format02X_lt L3 lL3,
      parse_format02X_lt H4 lH4, parse_format02X_lt L4 lL4,
      parse_format02X_lt H5 lH5, parse_format02X_lt L5 lL5,
      parse_format02X_lt H6 lH6, parse_format02X_lt L6 lL6,
      parse_format02X_lt H7 lH7, parse_format02X_lt L7 lL7]
  rw [hex_changed_parsed g0 _ _ hlen hparse,
    decode_tail_eq _ _ _ _ _ _ _ _ _ _ _ _ _ _ _ _ _ hg0,
    px0, px1, px2, px3, px4, px5, px6, px7]

theorem decode_encode_roundtrip_witness :
    ValidGrid checkerGrid ∧ ValidGrid allDark ∧
    ∃ h : List Char, update_hex_display checkerGrid = some h ∧
      hex_changed allDark h = some (checkerGrid, none) :=
  ⟨by unfold ValidGrid; decide, by unfold ValidGrid; decide,
    decode_encode_roundtrip checkerGrid allDark
      (by unfold ValidGrid; decide) (by unfold ValidGrid; decide)⟩


/-- C2: on every valid 8x8 grid the implementation's encode agrees with
the reference definition built from the spec's words (per-row plane bytes
with column 0 in the most significant bit, row-major low-then-high,
pairwise swap, 16 two-digit uppercase hex tokens joined by single
spaces); in particular encode is total and deterministic on such grids. -/
theorem encode_matches_spec (g : List (List Nat)) (hg : ValidGrid g) :
    update_hex_display g = some (specEncode g) := by
  obtain ⟨r0, r1, r2, r3, r4, r5, r6, r7, rfl, q0, q1, q2, q3, q4, q5, q6, q7⟩ :=
    ValidGrid_destruct g hg
  obtain ⟨c00, c01, c02, c03, c04, c05, c06, c07, rfl, d00, d01, d02, d03, d04, d05, d06, d07⟩ :=
    row_destruct r0 q0.1 q0.2
  obtain ⟨c10, c11, c12, c13, c14, c15, c16, c17, rfl, d10, d11, d12, d13, d14, d15, d16, d17⟩ :=
    row_destruct r1 q1.1 q1.2
  obtain ⟨c20, c21, c22, c23, c24, c25, c26, c27, rfl, d20, d21, d22, d23, d24, d25, d26, d27⟩ :=
    row_destruct r2 q2.1 q2.2
  obtain ⟨c30, c31, c32, c33, c34, c35, c36, c37, rfl, d30, d31, d32, d33, d34, d35, d36, d37⟩ :=
    row_destruct r3 q3.1 q3.2
  obtain ⟨c40, c41, c42, c43, c44, c45, c46, c47, rfl, d40, d41, d42, d43, d44, d45, d46, d47⟩ :=
    row_destruct r4 q4.1 q4.2
  obtain ⟨c50, c51, c52, c53, c54, c55, c56, c57, rfl, d50, d51, d52, d53, d54, d55, d56, d57⟩ :=
    row_destruct r5 q5.1 q5.2
  obtain ⟨c60, c61, c62, c63, c64, c65, c66, c67, rfl, d60, d61, d62, d63, d64, d65, d66, d67⟩ :=
    row_destruct r6 q6.1 q6.2
  obtain ⟨c70, c71, c72, c73, c74, c75, c76, c77, rfl, d70, d71, d72, d73, d74, d75, d76, d77⟩ :=
    row_destruct r7 q7.1 q7.2
  obtain ⟨L0, H0, w0, s0, z0, lL0, lH0, px0⟩ :=
    row_master c00 c01 c02 c03 c04 c05 c06 c07 d00 d01 d02 d03 d04 d05 d06 d07
  obtain ⟨L1, H1, w1, s1, z1, lL1, lH1, px1⟩ :=
    row_master c10 c11 c12 c13 c14 c15 c16 c17 d10 d11 d12 d13 d14 d15 d16 d17
  obtain ⟨L2, H2, w2, s2, z2, lL2, lH2, px2⟩ :=
    row_master c20 c21 c22 c23 c24 c25 c26 c27 d20 d21 d22 d23 d24 d25 d26 d27
  obtain ⟨L3, H3, w3, s3, z3, lL3, lH3, px3⟩ :=
    row_master c30 c31 c32 c33 c34 c35 c36 c37 d30 d31 d32 d33 d34 d35 d36 d37
  obtain ⟨L4, H4, w4, s4, z4, lL4, lH4, px4⟩ :=
    row_master c40 c41 c42 c43 c44 c45 c46 c47 d40 d41 d42 d43 d44 d45 d46 d47
  obtain ⟨L5, H5, w5, s5, z5, lL5, lH5, px5⟩ :=
    row_master c50 c51 c52 c53 c54 c55 c56 c57 d50 d51 d52 d53 d54 d55 d56 d57
  obtain ⟨L6, H6, w6, s6, z6, lL6, lH6, px6⟩ :=
    row_master c60 c61 c62 c63 c64 c65 c66 c67 d60 d61 d62 d63 d64 d65 d66 d67
  obtain ⟨L7, H7, w7, s7, z7, lL7, lH7, px7⟩ :=
    row_master c70 c71 c72 c73 c74 c75 c76 c77 d70 d71 d72 d73 d74 d75 d76 d77
  have htile := grid_to_tile_bytes_eq _ _ _ _ _ _ _ _ _ _ _ _ _ _ _ _ _ _ _ _ _ _ _ _
    w0 w1 w2 w3 w4 w5 w6 w7
  unfold update_hex_display
  rw [htile]
  simp only [Option.some_bind]
  rw [to_little_endian_pairs_eq]
  simp only [Option.map_some', Option.some.injEq]
  unfold specEncode specTileBytes
  simp only [List.flatMap_cons, List.flatMap_nil, List.append_nil, List.cons_append,
    List.nil_append]
  rw [← s0, ← z0, ← s1, ← z1, ← s2, ← z2, ← s3, ← z3, ← s4, ← z4, ← s5, ← z5, ← s6, ← z6, ← s7, ← z7]
  have hsw : specSwapPairs [L0, H0, L1, H1, L2, H2, L3, H3, L4, H4, L5, H5, L6, H6, L7, H7] =
      [H0, L0, H1, L1, H2, L2, H3, L3, H4, L4, H5, L5, H6, L6, H7, L7] := rfl
  rw [hsw]
  simp only [List.map_cons, List.map_nil]
  rw [format02X_spec_lt H0 lH0, format02X_spec_lt L0 lL0, format02X_spec_lt H1 lH1, format02X_spec_lt L1 lL1, format02X_spec_lt H2 lH2, format02X_spec_lt L2 lL2, format02X_spec_lt H3 lH3, format02X_spec_lt L3 lL3, format02X_spec_lt H4 lH4, format02X_spec_lt L4 lL4, format02X_spec_lt H5 lH5, format02X_spec_lt L5 lL5, format02X_spec_lt H6 lH6, format02X_spec_lt L6 lL6, format02X_spec_lt H7 lH7, format02X_spec_lt L7 lL7]

theorem encode_matches_spec_witness :
    ValidGrid checkerGrid ∧ update_hex_display checkerGrid = some (specEncode checkerGrid) :=
  ⟨by unfold ValidGrid; decide,
    encode_matches_spec checkerGrid (by unfold ValidGrid; decide)⟩

/-- C5 (counterexample to the claim as stated): the accepted input whose
first token is "100" decodes with no error, but re-encoding the decoded
grid yields "00 00 ... 00", which is not the canonical form (uppercased,
whitespace-normalized) of the input. -/
theorem reencode_canonical_cx :
    hex_changed allWhite tokens100 = some (allDark, none) ∧
    update_hex_display allDark = some sixteenZeros ∧
    sixteenZeros ≠ specCanonicalForm tokens100 := by
  refine ⟨by decide, by decide, by decide⟩

/-- C5 (amended): for every input that decode accepts whose 16 tokens are
each exactly two hexadecimal digits (the wire format of section 6),
re-encoding the decoded grid returns the canonical form of the input:
hex digits uppercased and whitespace runs normalized to single spaces.
Accepted tokens outside that shape (longer, signed, prefixed or
single-digit) break the law, as the counterexample shows. -/
theorem reencode_canonical (g0 : List (List Nat)) (h : List Char) (hg0 : ValidGrid g0)
    (hlen : (pySplit h).length = 16)
    (htok : ∀ t ∈ pySplit h, isTwoHexDigits t = true) :
    ∃ g1, hex_changed g0 h = some (g1, none) ∧
      update_hex_display g1 = some (specCanonicalForm h) := by
  obtain ⟨t0, t1, t2, t3, t4, t5, t6, t7, t8, t9, t10, t11, t12, t13, t14, t15, hsp⟩ := list_sixteen (pySplit h) hlen
  have m0 : isTwoHexDigits t0 = true := htok t0 (by rw [hsp]; simp)
  have m1 : isTwoHexDigits t1 = true := htok t1 (by rw [hsp]; simp)
  have m2 : isTwoHexDigits t2 = true := htok t2 (by rw [hsp]; simp)
  have m3 : isTwoHexDigits t3 = true := htok t3 (by rw [hsp]; simp)
  have m4 : isTwoHexDigits t4 = true := htok t4 (by rw [hsp]; simp)
  have m5 : isTwoHexDigits t5 = true := htok t5 (by rw [hsp]; simp)
  have m6 : isTwoHexDigits t6 = true := htok t6 (by rw [hsp]; simp)
  have m7 : isTwoHexDigits t7 = true := htok t7 (by rw [hsp]; simp)
  have m8 : isTwoHexDigits t8 = true := htok t8 (by rw [hsp]; simp)
  have m9 : isTwoHexDigits t9 = true := htok t9 (by rw [hsp]; simp)
  have m10 : isTwoHexDigits t10 = true := htok t10 (by rw [hsp]; simp)
  have m11 : isTwoHexDigits t11 = true := htok t11 (by rw [hsp]; simp)
  have m12 : isTwoHexDigits t12 = true := htok t12 (by rw [hsp]; simp)
  have m13 : isTwoHexDigits t13 = true := htok t13 (by rw [hsp]; simp)
  have m14 : isTwoHexDigits t14 = true := htok t14 (by rw [hsp]; simp)
  have m15 : isTwoHexDigits t15 = true := htok t15 (by rw [hsp]; simp)
  obtain ⟨a0, b0, va0, vb0, rfl, ha0, hb0⟩ := twoHex_destruct t0 m0
  obtain ⟨a1, b1, va1, vb1, rfl, ha1, hb1⟩ := twoHex_destruct t1 m1
  obtain ⟨a2, b2, va2, vb2, rfl, ha2, hb2⟩ := twoHex_destruct t2 m2
  obtain ⟨a3, b3, va3, vb3, rfl, ha3, hb3⟩ := twoHex_destruct t3 m3
  obtain ⟨a4, b4, va4, vb4, rfl, ha4, hb4⟩ := twoHex_destruct t4 m4
  obtain ⟨a5, b5, va5, vb5, rfl, ha5, hb5⟩ := twoHex_destruct t5 m5
  obtain ⟨a6, b6, va6, vb6, rfl, ha6, hb6⟩ := twoHex_destruct t6 m6
  obtain ⟨a7, b7, va7, vb7, rfl, ha7, hb7⟩ := twoHex_destruct t7 m7
  obtain ⟨a8, b8, va8, vb8, rfl, ha8, hb8⟩ := twoHex_destruct t8 m8
  obtain ⟨a9, b9, va9, vb9, rfl, ha9, hb9⟩ := twoHex_destruct t9 m9
  obtain ⟨a10, b10, va10, vb10, rfl, ha10, hb10⟩ := twoHex_destruct t10 m10
  obtain ⟨a11, b11, va11, vb11, rfl, ha11, hb11⟩ := twoHex_destruct t11 m11
  obtain ⟨a12, b12, va12, vb12, rfl, ha12, hb12⟩ := twoHex_destruct t12 m12
  obtain ⟨a13, b13, va13, vb13, rfl, ha13, hb13⟩ := twoHex_destruct t13 m13
  obtain ⟨a14, b14, va14, vb14, rfl, ha14, hb14⟩ := twoHex_destruct t14 m14
  obtain ⟨a15, b15, va15, vb15, rfl, ha15, hb15⟩ := twoHex_destruct t15 m15
  have p0 : pyIntBase16 [a0, b0] = some (Int.ofNat (16 * va0 + vb0)) :=
    pyIntBase16_two a0 b0 va0 vb0 ha0 hb0
  have p1 : pyIntBase16 [a1, b1] = some (Int.ofNat (16 * va1 + vb1)) :=
    pyIntBase16_two a1 b1 va1 vb1 ha1 hb1
  have p2 : pyIntBase16 [a2, b2] = some (Int.ofNat (16 * va2 + vb2)) :=
    pyIntBase16_two a2 b2 va2 vb2 ha2 hb2
  have p3 : pyIntBase16 [a3, b3] = some (Int.ofNat (16 * va3 + vb3)) :=
    pyIntBase16_two a3 b3 va3 vb3 ha3 hb3
  have p4 : pyIntBase16 [a4, b4] = some (Int.ofNat (16 * va4 + vb4)) :=
    pyIntBase16_two a4 b4 va4 vb4 ha4 hb4
  have p5 : pyIntBase16 [a5, b5] = some (Int.ofNat (16 * va5 + vb5)) :=
    pyIntBase16_two a5 b5 va5 vb5 ha5 hb5
  have p6 : pyIntBase16 [a6, b6] = some (Int.ofNat (16 * va6 + vb6)) :=
    pyIntBase16_two a6 b6 va6 vb6 ha6 hb6
  have p7 : pyIntBase16 [a7, b7] = some (Int.ofNat (16 * va7 + vb7)) :=
    pyIntBase16_two a7 b7 va7 vb7 ha7 hb7
  have p8 : pyIntBase16 [a8, b8] = some (Int.ofNat (16 * va8 + vb8)) :=
    pyIntBase16_two a8 b8 va8 vb8 ha8 hb8
  have p9 : pyIntBase16 [a9, b9] = some (Int.ofNat (16 * va9 + vb9)) :=
    pyIntBase16_two a9 b9 va9 vb9 ha9 hb9
  have p10 : pyIntBase16 [a10, b10] = some (Int.ofNat (16 * va10 + vb10)) :=
    pyIntBase16_two a10 b10 va10 vb10 ha10 hb10
  have p11 : pyIntBase16 [a11, b11] = some (Int.ofNat (16 * va11 + vb11)) :=
    pyIntBase16_two a11 b11 va11 vb11 ha11 hb11
  have p12 : pyIntBase16 [a12, b12] = some (Int.ofNat (16 * va12 + vb12)) :=
    pyIntBase16_two a12 b12 va12 vb12 ha12 hb12
  have p13 : pyIntBase16 [a13, b13] = some (Int.ofNat (16 * va13 + vb13)) :=
    pyIntBase16_two a13 b13 va13 vb13 ha13 hb13
  have p14 : pyIntBase16 [a14, b14] = some (Int.ofNat (16 * va14 + vb14)) :=
    pyIntBase16_two a14 b14 va14 vb14 ha14 hb14
  have p15 : pyIntBase16 [a15, b15] = some (Int.ofNat (16 * va15 + vb15)) :=
    pyIntBase16_two a15 b15 va15 vb15 ha15 hb15
  have hB0 : 16 * va0 + vb0 < 256 := by
    have e1 := hexDigitVal_lt a0 va0 ha0
    have e2 := hexDigitVal_lt b0 vb0 hb0
    omega
  have hB1 : 16 * va1 + vb1 < 256 := by
    have e1 := hexDigitVal_lt a1 va1 ha1
    have e2 := hexDigitVal_lt b1 vb1 hb1
    omega
  have hB2 : 16 * va2 + vb2 < 256 := by
    have e1 := hexDigitVal_lt a2 va2 ha2
    have e2 := hexDigitVal_lt b2 vb2 hb2
    omega
  have hB3 : 16 * va3 + vb3 < 256 := by
    have e1 := hexDigitVal_lt a3 va3 ha3
    have e2 := hexDigitVal_lt b3 vb3 hb3
    omega
  have hB4 : 16 * va4 + vb4 < 256 := by
    have e1 := hexDigitVal_lt a4 va4 ha4
    have e2 := hexDigitVal_lt b4 vb4 hb4
    omega
  have hB5 : 16 * va5 + vb5 < 256 := by
    have e1 := hexDigitVal_lt a5 va5 ha5
    have e2 := hexDigitVal_lt b5 vb5 hb5
    omega
  have hB6 : 16 * va6 + vb6 < 256 := by
    have e1 := hexDigitVal_lt a6 va6 ha6
    have e2 := hexDigitVal_lt b6 vb6 hb6
    omega
  have hB7 : 16 * va7 + vb7 < 256 := by
    have e1 := hexDigitVal_lt a7 va7 ha7
    have e2 := hexDigitVal_lt b7 vb7 hb7
    omega
  have hB8 : 16 * va8 + vb8 < 256 := by
    have e1 := hexDigitVal_lt a8 va8 ha8
    have e2 := hexDigitVal_lt b8 vb8 hb8
    omega
  have hB9 : 16 * va9 + vb9 < 256 := by
    have e1 := hexDigitVal_lt a9 va9 ha9
    have e2 := hexDigitVal_lt b9 vb9 hb9
    omega
  have hB10 : 16 * va10 + vb10 < 256 := by
    have e1 := hexDigitVal_lt a10 va10 ha10
    have e2 := hexDigitVal_lt b10 vb10 hb10
    omega
  have hB11 : 16 * va11 + vb11 < 256 := by
    have e1 := hexDigitVal_lt a11 va11 ha11
    have e2 := hexDigitVal_lt b11 vb11 hb11
    omega
  have hB12 : 16 * va12 + vb12 < 256 := by
    have e1 := hexDigitVal_lt a12 va12 ha12
    have e2 := hexDigitVal_lt b12 vb12 hb12
    omega
  have hB13 : 16 * va13 + vb13 < 256 := by
    have e1 := hexDigitVal_lt a13 va13 ha13
    have e2 := hexDigitVal_lt b13 vb13 hb13
    omega
  have hB14 : 16 * va14 + vb14 < 256 := by
    have e1 := hexDigitVal_lt a14 va14 ha14
    have e2 := hexDigitVal_lt b14 vb14 hb14
    omega
  have hB15 : 16 * va15 + vb15 < 256 := by
    have e1 := hexDigitVal_lt a15 va15 ha15
    have e2 := hexDigitVal_lt b15 vb15 hb15
    omega
  have hparse : parseTokens (pySplit h) = some [Int.ofNat (16 * va0 + vb0), Int.ofNat (16 * va1 + vb1), Int.ofNat (16 * va2 + vb2), Int.ofNat (16 * va3 + vb3), Int.ofNat (16 * va4 + vb4), Int.ofNat (16 * va5 + vb5), Int.ofNat (16 * va6 + vb6), Int.ofNat (16 * va7 + vb7), Int.ofNat (16 * va8 + vb8), Int.ofNat (16 * va9 + vb9), Int.ofNat (16 * va10 + vb10), Int.ofNat (16 * va11 + vb11), Int.ofNat (16 * va12 + vb12), Int.ofNat (16 * va13 + vb13), Int.ofNat (16 * va14 + vb14), Int.ofNat (16 * va15 + vb15)] := by
    rw [hsp]
    simp only [parseTokens, p0, p1, p2, p3, p4, p5, p6, p7, p8, p9, p10, p11, p12, p13, p14, p15]
  rw [hex_changed_parsed g0 h _ hlen hparse,
    decode_tail_eq _ _ _ _ _ _ _ _ _ _ _ _ _ _ _ _ _ hg0]
  refine ⟨_, rfl, ?_⟩
  have w0 := row_reencode (16 * va1 + vb1) (16 * va0 + vb0) hB1 hB0
  have w1 := row_reencode (16 * va3 + vb3) (16 * va2 + vb2) hB3 hB2
  have w2 := row_reencode (16 * va5 + vb5) (16 * va4 + vb4) hB5 hB4
  have w3 := row_reencode (16 * va7 + vb7) (16 * va6 + vb6) hB7 hB6
  have w4 := row_reencode (16 * va9 + vb9) (16 * va8 + vb8) hB9 hB8
  have w5 := row_reencode (16 * va11 + vb11) (16 * va10 + vb10) hB11 hB10
  have w6 := row_reencode (16 * va13 + vb13) (16 * va12 + vb12) hB13 hB12
  have w7 := row_reencode (16 * va15 + vb15) (16 * va14 + vb14) hB15 hB14
  have htile := grid_to_tile_bytes_eq _ _ _ _ _ _ _ _ _ _ _ _ _ _ _ _ _ _ _ _ _ _ _ _
    w0 w1 w2 w3 w4 w5 w6 w7
  unfold update_hex_display
  rw [htile]
  simp only [Option.some_bind]
  rw [to_little_endian_pairs_eq]
  simp only [Option.map_some', Option.some.injEq]
  unfold specCanonicalForm
  rw [hsp]
  simp only [List.map_cons, List.map_nil]
  rw [format02X_two a0 b0 va0 vb0 ha0 hb0,
    format02X_two a1 b1 va1 vb1 ha1 hb1,
    format02X_two a2 b2 va2 vb2 ha2 hb2,
    format02X_two a3 b3 va3 vb3 ha3 hb3,
    format02X_two a4 b4 va4 vb4 ha4 hb4,
    format02X_two a5 b5 va5 vb5 ha5 hb5,
    format02X_two a6 b6 va6 vb6 ha6 hb6,
    format02X_two a7 b7 va7 vb7 ha7 hb7,
    format02X_two a8 b8 va8 vb8 ha8 hb8,
    format02X_two a9 b9 va9 vb9 ha9 hb9,
    format02X_two a10 b10 va10 vb10 ha10 hb10,
    format02X_two a11 b11 va11 vb11 ha11 hb11,
    format02X_two a12 b12 va12 vb12 ha12 hb12,
    format02X_two a13 b13 va13 vb13 ha13 hb13,
    format02X_two a14 b14 va14 vb14 ha14 hb14,
    format02X_two a15 b15 va15 vb15 ha15 hb15]

theorem reencode_canonical_witness :
    (ValidGrid allWhite ∧ (pySplit allFs).length = 16 ∧
      ∀ t ∈ pySplit allFs, isTwoHexDigits t = true) ∧
    ∃ g1, hex_changed allWhite allFs = some (g1, none) ∧
      update_hex_display g1 = some (specCanonicalForm allFs) :=
  ⟨⟨by unfold ValidGrid; decide, by decide, by decide⟩,
    reencode_canonical allWhite allFs (by unfold ValidGrid; decide) (by decide) (by decide)⟩
